import Mathlib

set_option maxHeartbeats 1000000

/-!
Shallow embedding of the role-management layer of the shoeapp backend
(`users/views.py`: class `CustomUserViewSet` and its nested
`RoleAssignmentAndDismissalHandler`, plus the `StoreOwner` table introduced by
`users/migrations/0002_storeowner.py`), together with theorems checking the
natural-language specification against it.

Conventions of the embedding:
* Database tables are lists of rows; a Django `save(update_fields=[f])` is an
  update of field `f` on every row with the saved object's primary key, and a
  plain `save()` writes the whole row.
* The Python dict `{user.id: user for user in existing_users}` is a list of the
  fetched rows, read with `List.find?` and updated in place on `setattr`; the
  theorems that need the dict to be a function of the id assume the user table
  has no duplicate primary keys, which the storage layer enforces.
* Fallible Python operations (attribute lookup, name lookup, `objects.get`)
  return `Except PyErr`.
* `int(token)` on the request strings is modelled by `pyInt` below.
-/

/-- One row of the CustomUser table.  The fields are the ones the role logic
and `CustomUserSerializer` touch: integer primary key, unique username, the
name fields, and the six independent boolean role flags. -/
structure User where
  id : Int
  username : String
  first_name : String
  last_name : String
  is_store_owner : Bool
  is_store_manager : Bool
  is_inventory_manager : Bool
  is_sales_associate : Bool
  is_customer_service : Bool
  is_cashier : Bool
deriving DecidableEq

/-- The persistent state the endpoints touch: the CustomUser table and the
StoreOwner table.  A StoreOwner row is a one-to-one link to a user
(`related_name='store_owner_entry'`), so the table is represented by the list
of linked user ids. -/
structure DB where
  users : List User
  owners : List Int
deriving DecidableEq

/-- Python errors that the embedded code can raise. -/
inductive PyErr where
  | nameError (n : String)
  | attributeError (n : String)
  | keyError (n : String)
  | getFailed (username : String)
deriving DecidableEq

/-! ### Python `int(...)` on a request token -/

/-- ASCII whitespace stripped by Python's `int(str)`. -/
def isPySpace (c : Char) : Bool :=
  c = ' ' || c = '\t' || c = '\n' || c = '\r'

/-- Strip surrounding whitespace from a character list. -/
def pyStrip (l : List Char) : List Char :=
  ((l.dropWhile isPySpace).reverse.dropWhile isPySpace).reverse

/-- After the leading digit, Python allows single underscores between digits. -/
def pyDigitsAux : List Char → Bool
  | [] => true
  | ['_'] => false
  | '_' :: c :: r2 => c.isDigit && pyDigitsAux r2
  | c :: rest => c.isDigit && pyDigitsAux rest

/-- A valid unsigned digit part of a Python decimal int literal. -/
def pyDigitsOk : List Char → Bool
  | [] => false
  | c :: rest => c.isDigit && pyDigitsAux rest

/-- Numeric value of a digit list (underscores removed beforehand). -/
def digitsToNat (l : List Char) : Nat :=
  l.foldl (fun a c => a * 10 + (c.toNat - 48)) 0

/-- Value of a digit part, ignoring the grouping underscores. -/
def pyDigitsVal (l : List Char) : Nat :=
  digitsToNat (l.filter (fun c => !(c = '_')))

/-- Sign and digits of the stripped token. -/
def pyIntCore (l : List Char) : Option Int :=
  match l with
  | '+' :: rest => if pyDigitsOk rest then some (Int.ofNat (pyDigitsVal rest)) else none
  | '-' :: rest => if pyDigitsOk rest then some (-(Int.ofNat (pyDigitsVal rest))) else none
  | _ => if pyDigitsOk l then some (Int.ofNat (pyDigitsVal l)) else none

/-- Python `int(token)` for a request string: surrounding whitespace, an
optional sign, then decimal digits with single grouping underscores; `none`
models the `ValueError` branch.  (Non-ASCII digits are not modelled.) -/
def pyInt (s : String) : Option Int :=
  pyIntCore (pyStrip s.toList)

/-! ### Dynamic attribute access on the six role flags -/

/-- Python `getattr(user, f)` restricted to the six role-flag names; any other
name has no such attribute (`none`), which also models `hasattr`. -/
def getattrFlag (u : User) (f : String) : Option Bool :=
  if f = "is_store_owner" then some u.is_store_owner
  else if f = "is_store_manager" then some u.is_store_manager
  else if f = "is_inventory_manager" then some u.is_inventory_manager
  else if f = "is_sales_associate" then some u.is_sales_associate
  else if f = "is_customer_service" then some u.is_customer_service
  else if f = "is_cashier" then some u.is_cashier
  else none

/-- Python `setattr(user, f, b)` on the six role flags; other names leave the
row unchanged (never reached by the code with a registered role). -/
def setattrFlag (u : User) (f : String) (b : Bool) : User :=
  if f = "is_store_owner" then { u with is_store_owner := b }
  else if f = "is_store_manager" then { u with is_store_manager := b }
  else if f = "is_inventory_manager" then { u with is_inventory_manager := b }
  else if f = "is_sales_associate" then { u with is_sales_associate := b }
  else if f = "is_customer_service" then { u with is_customer_service := b }
  else if f = "is_cashier" then { u with is_cashier := b }
  else u

/-- `user.save(update_fields=[f])`: persist field `f` of the in-memory object
with primary key `i` to the table. -/
def saveField (store : List User) (i : Int) (f : String) (b : Bool) : List User :=
  store.map (fun v => if v.id = i then setattrFlag v f b else v)

/-- `request.user.save()` with no `update_fields`: write the whole row. -/
def saveAll (store : List User) (u : User) : List User :=
  store.map (fun v => if v.id = u.id then u else v)

/-- In-place mutation of the object held by the fetched dict. -/
def dictUpd (dict : List User) (u2 : User) : List User :=
  dict.map (fun v => if v.id = u2.id then u2 else v)

/-- First row of the table with the given id (dict lookup / `objects.get(id=)`). -/
def userById (store : List User) (i : Int) : Option User :=
  store.find? (fun v => decide (v.id = i))

/-! ### The role registry (`self.role_configs`) -/

/-- One entry of `role_configs`: boolean field name and display name. -/
structure RoleConfig where
  field : String
  display_name : String
deriving DecidableEq

/-- The static `role_configs` table of `RoleAssignmentAndDismissalHandler`. -/
def role_configs : List (String × RoleConfig) :=
  [("store_owner", ⟨"is_store_owner", "store owner"⟩),
   ("store_manager", ⟨"is_store_manager", "store manager"⟩),
   ("inventory_manager", ⟨"is_inventory_manager", "inventory manager"⟩),
   ("customer_service", ⟨"is_customer_service", "customer service"⟩),
   ("cashier", ⟨"is_cashier", "cashier"⟩),
   ("sales_associate", ⟨"is_sales_associate", "sales associate"⟩)]

/-- `self.role_configs[role_type]` (a missing key raises `KeyError`). -/
def lookupConfig (k : String) : Option RoleConfig :=
  (role_configs.find? (fun p => decide (p.1 = k))).map (fun p => p.2)

def storeOwnerConfig : RoleConfig := ⟨"is_store_owner", "store owner"⟩

/-! ### `process_assignments` -/

/-- Error message of the self-assignment branch. -/
def selfAssignMsg (disp : String) : String :=
  "Cannot assign " ++ disp ++ " role to yourself."

/-- Error message of the already-has-role branch. -/
def alreadyMsg (disp : String) (u : User) : String :=
  "User " ++ u.username ++ " is already a " ++ disp ++ "."

/-- Output of the id-validation loop of `process_assignments`. -/
structure ParseOut where
  valid : List Int
  invalid : List String
  errors : List String
deriving DecidableEq

/-- Lines 151-160 of views.py: convert tokens with `int`, skip the current
user with one error message per occurrence, put `ValueError` tokens in the
invalid list. -/
def parseAssignIds (disp : String) (cur : Int) : List String → ParseOut
  | [] => ⟨[], [], []⟩
  | t :: rest =>
    let r := parseAssignIds disp cur rest
    match pyInt t with
    | some n =>
      if n = cur then { r with errors := selfAssignMsg disp :: r.errors }
      else { r with valid := n :: r.valid }
    | none => { r with invalid := t :: r.invalid }

/-- Per-category contributions of the per-id loop. -/
structure LoopOut where
  assigned : List String
  not_found : List String
  invalid : List String
  errors : List String
deriving DecidableEq

/-- Lines 167-182 of views.py: for each valid id in input order, read the
fetched dict; missing ids go to not-found, ids whose flag is already set get
an error message and the invalid list, the rest get the flag set, that one
field saved, and their username appended. -/
def assignLoop (f disp : String) : List Int → List User → List User → List User × LoopOut
  | [], _, store => (store, ⟨[], [], [], []⟩)
  | i :: rest, dict, store =>
    match dict.find? (fun v => decide (v.id = i)) with
    | none =>
      let r := assignLoop f disp rest dict store
      (r.1, { r.2 with not_found := toString i :: r.2.not_found })
    | some u =>
      if (getattrFlag u f).getD false then
        let r := assignLoop f disp rest dict store
        (r.1, { r.2 with invalid := toString i :: r.2.invalid,
                         errors := alreadyMsg disp u :: r.2.errors })
      else
        let u2 := setattrFlag u f true
        let r := assignLoop f disp rest (dictUpd dict u2) (saveField store i f true)
        (r.1, { r.2 with assigned := u.username :: r.2.assigned })

/-- The categorized lists `process_assignments` has built once the per-user
work (and every `save`) is done, just before response-message construction. -/
structure AssignCore where
  assigned_users : List String
  not_found_ids : List String
  invalid_ids : List String
  error_messages : List String
deriving DecidableEq

/-- Lines 143-182 of views.py: the whole of `process_assignments` up to (and
excluding) the response-message construction: validation loop, bulk fetch of
the valid ids into a dict, then the per-id loop. -/
def process_assignments_core (cfg : RoleConfig) (cur : Int) (user_ids : List String)
    (store : List User) : List User × AssignCore :=
  let p := parseAssignIds cfg.display_name cur user_ids
  if p.valid.isEmpty then (store, ⟨[], [], p.invalid, p.errors⟩)
  else
    let dict := store.filter (fun u => decide (u.id ∈ p.valid))
    let r := assignLoop cfg.field cfg.display_name p.valid dict store
    (r.1, ⟨r.2.assigned, r.2.not_found, p.invalid ++ r.2.invalid, p.errors ++ r.2.errors⟩)

/-- The response-message dict of the assignment builder (all keys optional). -/
structure AssignMessages where
  message : Option String
  not_found : Option String
  invalid : Option String
  errors : Option (List String)
deriving DecidableEq

/-- Lines 194-228 of views.py: `_build_process_assignment_response__messages`
(note the double underscore in the defined name). -/
def build_process_assignment_response__messages (cfg : RoleConfig)
    (assigned_users not_found_ids invalid_ids error_messages : List String) :
    AssignMessages :=
  { message :=
      match assigned_users with
      | [] => none
      | [a] => some ("User " ++ a ++ " has been assigned as a " ++ cfg.display_name ++ ".")
      | l => some ("Users " ++ String.intercalate ", " l ++ " have been assigned as " ++
          cfg.display_name ++ "s."),
    not_found :=
      match not_found_ids with
      | [] => none
      | [a] => some ("User with ID " ++ a ++ " was not found.")
      | l => some ("Users with IDs " ++ String.intercalate ", " l ++ " were not found."),
    invalid :=
      match invalid_ids with
      | [] => none
      | [a] => some ("Invalid ID: " ++ a ++ ".")
      | l => some ("Invalid IDs: " ++ String.intercalate ", " l ++ "."),
    errors :=
      match error_messages with
      | [] => none
      | l => some l }

/-- The attribute name `process_assignments` looks up on line 185. -/
def invokedAssignmentBuilderName : String :=
  "_build_process_assignment_response_messages"

/-- The attribute name actually defined on line 194. -/
def definedAssignmentBuilderName : String :=
  "_build_process_assignment_response__messages"

/-- Attribute dispatch for the assignment response builder: the handler class
defines only `definedAssignmentBuilderName`; looking up any other name raises
`AttributeError`. -/
def assignResponseBuilders (n : String) :
    Option (RoleConfig → List String → List String → List String → List String →
      AssignMessages) :=
  if n = definedAssignmentBuilderName then some build_process_assignment_response__messages
  else none

/-- The dict returned by `process_assignments` on success. -/
structure AssignResult where
  assigned_users : List String
  not_found_ids : List String
  invalid_ids : List String
  response_data : AssignMessages
deriving DecidableEq

/-- Lines 143-192 of views.py: `process_assignments`.  The per-user mutations
are already saved when the attribute lookup of the response builder runs, so a
failed lookup leaves the mutated table behind and returns no result. -/
def process_assignments (cfg : RoleConfig) (cur : Int) (user_ids : List String)
    (store : List User) : List User × Except PyErr AssignResult :=
  let r := process_assignments_core cfg cur user_ids store
  match assignResponseBuilders invokedAssignmentBuilderName with
  | some b =>
    (r.1, Except.ok ⟨r.2.assigned_users, r.2.not_found_ids, r.2.invalid_ids,
      b cfg r.2.assigned_users r.2.not_found_ids r.2.invalid_ids r.2.error_messages⟩)
  | none => (r.1, Except.error (PyErr.attributeError invokedAssignmentBuilderName))

/-! ### `process_dismissals` -/

/-- Error message of the self-dismissal branch. -/
def selfDismissMsg : String := "You cannot dismiss yourself."

/-- Lines 238-248 of views.py: the dismissal id-validation loop.  Unlike the
assignment one, `ValueError` tokens are appended to the not-found list.
Returns (valid ids, not-found tokens, error messages). -/
def parseDismissIds (cur : Int) : List String → List Int × List String × List String
  | [] => ([], [], [])
  | t :: rest =>
    let r := parseDismissIds cur rest
    match pyInt t with
    | some n =>
      if n = cur then (r.1, r.2.1, selfDismissMsg :: r.2.2)
      else (n :: r.1, r.2.1, r.2.2)
    | none => (r.1, t :: r.2.1, r.2.2)

/-- Modelled from the spec: `CustomUser.get_role` lives in `users/models.py`,
which is not under src/.  The spec says dismissal resolves the current role by
"a single-role lookup (first true flag encountered in the canonical six-role
order, or none if no flag is set)"; the returned values are the `UserRoles`
constants from `users/choices.py` (also not under src/), whose `lower()` forms
give the `is_<role>` field names used by the dismissal code. -/
def get_role (u : User) : Option String :=
  if u.is_store_owner then some "STORE_OWNER"
  else if u.is_store_manager then some "STORE_MANAGER"
  else if u.is_inventory_manager then some "INVENTORY_MANAGER"
  else if u.is_sales_associate then some "SALES_ASSOCIATE"
  else if u.is_customer_service then some "CUSTOMER_SERVICE"
  else if u.is_cashier then some "CASHIER"
  else none

/-- ASCII `str.lower()` for the `UserRoles` constants. -/
def lowerChar (c : Char) : Char :=
  if 'A' ≤ c ∧ c ≤ 'Z' then Char.ofNat (c.toNat + 32) else c

/-- Python `user_role.lower()` (the role constants are ASCII). -/
def pyLower (s : String) : String :=
  String.mk (s.toList.map lowerChar)

/-- Per-category contributions of the per-id dismissal loop (the loop appends
no error messages of its own). -/
structure DLoopOut where
  dismissed : List String
  not_found : List String
  no_roles : List String
deriving DecidableEq

/-- Lines 255-280 of views.py: for each valid id, read the fetched dict;
missing ids go to not-found; users whose `get_role()` is `None` go to the
no-role list; a store owner's `store_owner_entry` is deleted when present;
then the `is_<role>` flag is cleared, that one field saved, and the username
appended to the dismissed list. -/
def dismissLoop : List Int → List User → DB → DB × DLoopOut
  | [], _, db => (db, ⟨[], [], []⟩)
  | i :: rest, dict, db =>
    match dict.find? (fun v => decide (v.id = i)) with
    | none =>
      let r := dismissLoop rest dict db
      (r.1, { r.2 with not_found := toString i :: r.2.not_found })
    | some u =>
      match get_role u with
      | none =>
        let r := dismissLoop rest dict db
        (r.1, { r.2 with no_roles := toString i :: r.2.no_roles })
      | some role =>
        let db1 :=
          if role = "STORE_OWNER" ∧ u.id ∈ db.owners then
            { db with owners := db.owners.filter (fun o => !(o = u.id)) }
          else db
        let rf := "is_" ++ pyLower role
        match getattrFlag u rf with
        | some _ =>
          let u2 := setattrFlag u rf false
          let r := dismissLoop rest (dictUpd dict u2)
            { db1 with users := saveField db1.users i rf false }
          (r.1, { r.2 with dismissed := u.username :: r.2.dismissed })
        | none =>
          dismissLoop rest dict db1

/-- The categorized lists `process_dismissals` has built once the per-user
work (and every delete/save) is done, before response-message construction. -/
structure DismissCore where
  dismissed_users : List String
  not_found_ids : List String
  no_roles_ids : List String
  error_messages : List String
deriving DecidableEq

/-- Lines 230-280 of views.py: the whole of `process_dismissals` up to (and
excluding) the response-message construction. -/
def process_dismissals_core (cur : Int) (user_ids : List String) (db : DB) :
    DB × DismissCore :=
  let p := parseDismissIds cur user_ids
  if p.1.isEmpty then (db, ⟨[], p.2.1, [], p.2.2⟩)
  else
    let dict := db.users.filter (fun u => decide (u.id ∈ p.1))
    let r := dismissLoop p.1 dict db
    (r.1, ⟨r.2.dismissed, p.2.1 ++ r.2.not_found, r.2.no_roles, p.2.2⟩)

/-- The response-message dict of the dismissal builder. -/
structure DismissMessages where
  message : Option String
  not_found : Option String
  no_roles : Option String
  errors : Option (List String)
deriving DecidableEq

/-- An apostrophe, kept out of the message literals. -/
def apostr : String := String.singleton (Char.ofNat 39)

/-- Lines 295-326 of views.py: `_build_process_dismissal_response_messages`.
The dismissed and no-roles messages dereference `self.config`, which the
handler's `__init__` only sets when a `role_type` was passed; with
`role_type=None` (the `dismiss_role` path) that access raises
`AttributeError`. -/
def build_process_dismissal_response_messages (config : Option RoleConfig)
    (dismissed_users not_found_ids no_roles_ids error_messages : List String) :
    Except PyErr DismissMessages := do
  let message ← match dismissed_users with
    | [] => pure none
    | [a] => match config with
      | none => Except.error (PyErr.attributeError "config")
      | some c => pure (some ("User " ++ a ++ " has been dismissed as a " ++
          c.display_name ++ "."))
    | l => match config with
      | none => Except.error (PyErr.attributeError "config")
      | some c => pure (some ("Users " ++ String.intercalate ", " l ++
          " have been dismissed as " ++ c.display_name ++ "s."))
  let notFound : Option String := match not_found_ids with
    | [] => none
    | [a] => some ("User with ID " ++ a ++ " was not found.")
    | l => some ("Users with IDs " ++ String.intercalate ", " l ++ " were not found.")
  let noRoles ← match no_roles_ids with
    | [] => pure none
    | [a] => match config with
      | none => Except.error (PyErr.attributeError "config")
      | some c => pure (some ("User with ID " ++ a ++ " doesn" ++ apostr ++
          "t have the " ++ c.display_name ++ " role."))
    | l => match config with
      | none => Except.error (PyErr.attributeError "config")
      | some c => pure (some ("Users with IDs " ++ String.intercalate ", " l ++
          " don" ++ apostr ++ "t have the " ++ c.display_name ++ " role."))
  let errs : Option (List String) := match error_messages with
    | [] => none
    | l => some l
  pure ⟨message, notFound, noRoles, errs⟩

/-- The dict returned by `process_dismissals` on success. -/
structure DismissResult where
  dismissed_users : List String
  not_found_ids : List String
  no_roles_ids : List String
  error_messages : List String
  response_data : DismissMessages
deriving DecidableEq

/-- Lines 230-293 of views.py: `process_dismissals`.  All per-user deletes and
saves are durable before the response messages are built. -/
def process_dismissals (config : Option RoleConfig) (cur : Int)
    (user_ids : List String) (db : DB) : DB × Except PyErr DismissResult :=
  let r := process_dismissals_core cur user_ids db
  match build_process_dismissal_response_messages config r.2.dismissed_users
      r.2.not_found_ids r.2.no_roles_ids r.2.error_messages with
  | Except.ok m =>
    (r.1, Except.ok ⟨r.2.dismissed_users, r.2.not_found_ids, r.2.no_roles_ids,
      r.2.error_messages, m⟩)
  | Except.error e => (r.1, Except.error e)

/-! ### The endpoints -/

/-- The HTTP response body shapes the endpoints produce. -/
inductive Body where
  | err (msg : String)
  | msg (m : String)
  | assignMsgs (m : AssignMessages)
  | dismissPayload (r : DismissResult)
  | staff (rows : List (Int × String × String × Option String))
deriving DecidableEq

/-- An HTTP response: status code and body. -/
structure Response where
  status : Nat
  body : Body
deriving DecidableEq

/-- `CustomUser.objects.get(username=...)`: succeeds when exactly one row
matches, else raises. -/
def getByUsername (store : List User) (n : String) : Except PyErr User :=
  match store.filter (fun v => decide (v.username = n)) with
  | [u] => Except.ok u
  | _ => Except.error (PyErr.getFailed n)

/-- Lines 372-375 of views.py: for each assigned username, fetch the user by
username and create a StoreOwner row for them. -/
def createOwnersForAssigned (store : List User) :
    List Int → List String → Except PyErr (List Int)
  | owners, [] => Except.ok owners
  | owners, n :: rest =>
    match getByUsername store n with
    | Except.ok u => createOwnersForAssigned store (owners ++ [u.id]) rest
    | Except.error e => Except.error e

/-- Lines 357-376 of views.py: the non-bootstrap remainder of
`assign_store_owner` (empty-batch check, batch processing, StoreOwner rows for
the assigned users). -/
def assign_store_owner_batch (db : DB) (actor : User) (user_ids : List String) :
    DB × Except PyErr Response :=
  if user_ids.isEmpty then
    (db, Except.ok ⟨400, Body.err "No user IDs provided."⟩)
  else
    let r := process_assignments storeOwnerConfig actor.id user_ids db.users
    match r.2 with
    | Except.error e => ({ db with users := r.1 }, Except.error e)
    | Except.ok res =>
      if res.assigned_users.isEmpty ∧
          (!res.not_found_ids.isEmpty || !res.invalid_ids.isEmpty) then
        ({ db with users := r.1 }, Except.ok ⟨400, Body.assignMsgs res.response_data⟩)
      else
        match createOwnersForAssigned r.1 db.owners res.assigned_users with
        | Except.ok owners2 =>
          (⟨r.1, owners2⟩, Except.ok ⟨200, Body.assignMsgs res.response_data⟩)
        | Except.error e => ({ db with users := r.1 }, Except.error e)

/-- Lines 338-376 of views.py: `assign_store_owner`.  The StoreOwner-existence
check runs first; while no StoreOwner row exists, only the actor with id 1 may
proceed, and that path creates the actor's StoreOwner row, sets the actor's
own flag (a full-row save) and returns at once, never reading `user_ids`. -/
def assign_store_owner (db : DB) (actor : User) (user_ids : List String) :
    DB × Except PyErr Response :=
  if db.owners.isEmpty then
    if ¬(actor.id = 1) then
      (db, Except.ok ⟨403,
        Body.err "Only the first registered user (ID=1) can become the initial store owner."⟩)
    else
      let db1 := { db with owners := db.owners ++ [actor.id] }
      let actor2 := { actor with is_store_owner := true }
      ({ db1 with users := saveAll db1.users actor2 },
        Except.ok ⟨200, Body.msg "You have been assigned as the first store owner."⟩)
  else
    assign_store_owner_batch db actor user_ids

/-- Lines 379-525 of views.py: the five remaining assignment endpoints share
this body, differing only in the `role_type` literal passed to the handler. -/
def assign_role_endpoint (role_type : String) (db : DB) (actor : User)
    (user_ids : List String) : DB × Except PyErr Response :=
  if user_ids.isEmpty then
    (db, Except.ok ⟨400, Body.err "No user IDs provided."⟩)
  else
    match lookupConfig role_type with
    | none => (db, Except.error (PyErr.keyError role_type))
    | some cfg =>
      let r := process_assignments cfg actor.id user_ids db.users
      match r.2 with
      | Except.error e => ({ db with users := r.1 }, Except.error e)
      | Except.ok res =>
        if res.assigned_users.isEmpty ∧
            (!res.not_found_ids.isEmpty || !res.invalid_ids.isEmpty) then
          ({ db with users := r.1 }, Except.ok ⟨400, Body.assignMsgs res.response_data⟩)
        else
          ({ db with users := r.1 }, Except.ok ⟨200, Body.assignMsgs res.response_data⟩)

def assign_store_manager (db : DB) (actor : User) (ids : List String) :=
  assign_role_endpoint "store_manager" db actor ids

def assign_inventory_manager (db : DB) (actor : User) (ids : List String) :=
  assign_role_endpoint "inventory_manager" db actor ids

def assign_sales_associate (db : DB) (actor : User) (ids : List String) :=
  assign_role_endpoint "sales_associate" db actor ids

def assign_customer_service (db : DB) (actor : User) (ids : List String) :=
  assign_role_endpoint "customer_service" db actor ids

def assign_cashier (db : DB) (actor : User) (ids : List String) :=
  assign_role_endpoint "cashier" db actor ids

/-- The names bound at module level in views.py (its imports and its one
top-level class).  `RoleAssignmentAndDismissalHandler` is bound only inside
the class namespace of `CustomUserViewSet` (methods reach it as
`self.RoleAssignmentAndDismissalHandler`); a Python class body is not an
enclosing scope for the methods defined in it, so the bare name used on line
547 resolves against this list (then builtins) and fails. -/
def viewsModuleNames : List String :=
  ["status", "viewsets", "pagination", "PageNumberPagination", "action", "Response",
   "UserRoles", "CustomUser", "StoreOwner", "IsStoreOwner", "IsStoreManager",
   "IsSelfProfile", "IsInventoryManager", "CustomUserSerializer",
   "CustomUserUpdateSerializer", "CustomUserCreateSerializer", "CustomUserViewSet"]

/-- Lines 527-553 of views.py: `dismiss_role`.  After the empty-batch check,
line 547 evaluates the bare name `RoleAssignmentAndDismissalHandler`, which is
not bound in any scope visible there, so the call raises `NameError` before
any dismissal work; the would-be handler path (with `role_type=None`, hence no
`self.config`) is embedded for completeness. -/
def dismiss_role (db : DB) (actor : User) (user_ids : List String) :
    DB × Except PyErr Response :=
  if user_ids.isEmpty then
    (db, Except.ok ⟨400, Body.err "User IDs must be provided."⟩)
  else if "RoleAssignmentAndDismissalHandler" ∈ viewsModuleNames then
    let r := process_dismissals none actor.id user_ids db
    match r.2 with
    | Except.ok res => (r.1, Except.ok ⟨200, Body.dismissPayload res⟩)
    | Except.error e => (r.1, Except.error e)
  else
    (db, Except.error (PyErr.nameError "RoleAssignmentAndDismissalHandler"))

/-! ### The staff directory (`get_staff_members`) -/

/-- Does the user hold any of the six roles (the base staff query,
lines 576-588 of views.py: a union of six single-flag filters over one
table, which the database evaluates as one OR filter without duplicates). -/
def hasAnyRole (u : User) : Bool :=
  u.is_store_owner || u.is_store_manager || u.is_inventory_manager ||
  u.is_sales_associate || u.is_customer_service || u.is_cashier

/-- The six role keys accepted by the `role_type` query parameter. -/
def roleKeys : List String :=
  ["store_owner", "store_manager", "inventory_manager", "sales_associate",
   "customer_service", "cashier"]

/-- Lines 576-608 of views.py: the staff queryset.  `none` means the supplied
`role_type` is not one of the six keys (the 400 branch); an absent or empty
`role_type` is falsy in Python, so it leaves the base query unfiltered. -/
def staff_members_query (users : List User) (role_type : Option String) :
    Option (List User) :=
  let base := users.filter hasAnyRole
  match role_type with
  | none => some base
  | some rt =>
    if rt = "" then some base
    else if rt = "store_owner" then some (base.filter (fun u => u.is_store_owner))
    else if rt = "store_manager" then some (base.filter (fun u => u.is_store_manager))
    else if rt = "inventory_manager" then some (base.filter (fun u => u.is_inventory_manager))
    else if rt = "sales_associate" then some (base.filter (fun u => u.is_sales_associate))
    else if rt = "customer_service" then some (base.filter (fun u => u.is_customer_service))
    else if rt = "cashier" then some (base.filter (fun u => u.is_cashier))
    else none

/-- `StaffMemberPagination.page_size` (line 556 of views.py). -/
def staff_default_page_size : Nat := 10

/-- `StaffMemberPagination.max_page_size` (line 558 of views.py). -/
def staff_max_page_size : Nat := 100

/-- Modelled from the spec: the page-size resolution of the external DRF
`PageNumberPagination` machinery (not part of this repository) applied to the
`StaffMemberPagination` settings of views.py: "fixed default page size (10),
caller-overridable up to a hard cap (100)".  A requested size below 1 is
invalid and falls back to the default. -/
def get_page_size (req : Option Nat) : Nat :=
  match req with
  | none => staff_default_page_size
  | some n => if 1 ≤ n then min n staff_max_page_size else staff_default_page_size

/-- Modelled from the spec: the page slicing of the external pagination
machinery; "page parameter out of range yields an empty page, not an error"
(pages are 1-based). -/
def paginate (l : List α) (page sz : Nat) : List α :=
  (l.drop ((page - 1) * sz)).take sz

/-- Django's `get_full_name` (external `AbstractUser` code): first and last
name joined and stripped. -/
def get_full_name (u : User) : String :=
  String.mk (pyStrip (u.first_name ++ " " ++ u.last_name).toList)

/-- The per-row projection of the staff listing (lines 615-623 of views.py). -/
def staffRowOf (u : User) : Int × String × String × Option String :=
  (u.id, u.username, get_full_name u, get_role u)

/-- Lines 560-626 of views.py: `get_staff_members`.  An unknown `role_type`
is answered with a 400 response before any rows are emitted; otherwise the
queryset is paginated and projected. -/
def get_staff_members (users : List User) (role_type : Option String)
    (page : Nat) (page_size_req : Option Nat) : Response :=
  match staff_members_query users role_type with
  | none =>
    ⟨400, Body.err ("Invalid role type: " ++ role_type.getD "" ++
      ". Valid types are: store_owner, store_manager, inventory_manager, sales_associate, customer_service, cashier.")⟩
  | some q =>
    ⟨200, Body.staff ((paginate q page (get_page_size page_size_req)).map staffRowOf)⟩

/-! ### Sample data for concrete witnesses -/

/-- A sample row builder for concrete instances. -/
def sampleUser (i : Int) (n : String) (own mgr inv sales cs cash : Bool) : User :=
  ⟨i, n, "", "", own, mgr, inv, sales, cs, cash⟩

def uAdmin : User := sampleUser 1 "admin" false false false false false false
def uBob : User := sampleUser 2 "bob" false false false false false false
def uCarol : User := sampleUser 3 "carol" true false false false false false
def uDave : User := sampleUser 4 "dave" false false false false false true
def uEve : User := sampleUser 5 "eve" false false false false false false

/-- A sample database: an owner with a StoreOwner row, a cashier, two
unprivileged users. -/
def dbMain : DB := ⟨[uAdmin, uBob, uCarol, uDave], [3]⟩

/-- A sample pristine database: no StoreOwner rows. -/
def dbFresh : DB := ⟨[uAdmin, uBob], []⟩

/-! ### Row-level helper lemmas -/

theorem setattrFlag_id (u : User) (f : String) (b : Bool) :
    (setattrFlag u f b).id = u.id := by
  unfold setattrFlag
  repeat' split
  all_goals rfl

theorem setattrFlag_username (u : User) (f : String) (b : Bool) :
    (setattrFlag u f b).username = u.username := by
  unfold setattrFlag
  repeat' split
  all_goals rfl

theorem setattrFlag_owner_of_ne (u : User) (f : String) (b : Bool)
    (hf : f ≠ "is_store_owner") :
    (setattrFlag u f b).is_store_owner = u.is_store_owner := by
  unfold setattrFlag
  split_ifs <;> simp_all

theorem get_role_of_owner (u : User) (h : u.is_store_owner = true) :
    get_role u = some "STORE_OWNER" := by
  simp [get_role, h]

theorem get_role_owner_iff (u : User) :
    get_role u = some "STORE_OWNER" ↔ u.is_store_owner = true := by
  constructor
  · intro h
    unfold get_role at h
    split_ifs at h <;> simp_all
  · exact get_role_of_owner u

theorem get_role_cases_not_owner (u : User) (hf : u.is_store_owner = false)
    (R : String) (h : get_role u = some R) :
    R = "STORE_MANAGER" ∨ R = "INVENTORY_MANAGER" ∨ R = "SALES_ASSOCIATE" ∨
    R = "CUSTOMER_SERVICE" ∨ R = "CASHIER" := by
  unfold get_role at h
  rw [hf] at h
  simp only [Bool.false_eq_true, if_false] at h
  iterate 5 (all_goals try split at h)
  all_goals simp_all

theorem roleField_preserves_owner (u : User) (hf : u.is_store_owner = false)
    (R : String) (h : get_role u = some R) (v : User) (b : Bool) :
    (setattrFlag v ("is_" ++ pyLower R) b).is_store_owner = v.is_store_owner := by
  rcases get_role_cases_not_owner u hf R h with h5 | h5 | h5 | h5 | h5 <;>
    subst h5 <;> exact setattrFlag_owner_of_ne v _ b (by decide)

theorem get_role_ne_owner (u : User) (hf : u.is_store_owner = false)
    (R : String) (h : get_role u = some R) : R ≠ "STORE_OWNER" := by
  rcases get_role_cases_not_owner u hf R h with h5 | h5 | h5 | h5 | h5 <;>
    subst h5 <;> decide

/-! ### Table-update helper lemmas -/

theorem find?_id_map_ne (g : User → User) (k : Int)
    (hid : ∀ v, (g v).id = v.id) (hfix : ∀ v, v.id ≠ k → g v = v)
    (l : List User) (j : Int) (hj : j ≠ k) :
    (l.map g).find? (fun v => decide (v.id = j)) = l.find? (fun v => decide (v.id = j)) := by
  induction l with
  | nil => rfl
  | cons a rest ih =>
    simp only [List.map_cons]
    by_cases ha : a.id = j
    · have hga : (g a).id = j := by rw [hid]; exact ha
      rw [List.find?_cons_of_pos _ (by simp [hga]), List.find?_cons_of_pos _ (by simp [ha])]
      have : g a = a := hfix a (by rw [ha]; exact hj)
      rw [this]
    · have hga : ¬((g a).id = j) := by rw [hid]; exact ha
      rw [List.find?_cons_of_neg _ (by simp [hga]), List.find?_cons_of_neg _ (by simp [ha])]
      exact ih

theorem filter_id_map_ne (g : User → User) (k : Int)
    (hid : ∀ v, (g v).id = v.id) (hfix : ∀ v, v.id ≠ k → g v = v)
    (l : List User) (j : Int) (hj : j ≠ k) :
    (l.map g).filter (fun v => decide (v.id = j)) = l.filter (fun v => decide (v.id = j)) := by
  induction l with
  | nil => rfl
  | cons a rest ih =>
    simp only [List.map_cons, List.filter_cons]
    by_cases ha : a.id = j
    · have hga : (g a).id = j := by rw [hid]; exact ha
      simp [ha, hga, hfix a (by rw [ha]; exact hj), ih]
    · have hga : ¬((g a).id = j) := by rw [hid]; exact ha
      simp [ha, hga, ih]

theorem mem_id_map_ne (g : User → User) (k : Int)
    (hid : ∀ v, (g v).id = v.id) (hfix : ∀ v, v.id ≠ k → g v = v)
    (l : List User) (v : User) (hv : v ∈ l.map g) (hne : v.id ≠ k) : v ∈ l := by
  rcases List.mem_map.mp hv with ⟨w, hw, rfl⟩
  have hwk : w.id ≠ k := by rw [← hid w]; exact hne
  rw [hfix w hwk]
  exact hw

theorem saveField_g_id (i : Int) (f : String) (b : Bool) :
    ∀ v : User, ((fun v => if v.id = i then setattrFlag v f b else v) v).id = v.id := by
  intro v
  by_cases h : v.id = i
  · simp [h, setattrFlag_id]
  · simp [h]

theorem saveField_g_fix (i : Int) (f : String) (b : Bool) :
    ∀ v : User, v.id ≠ i → (fun v => if v.id = i then setattrFlag v f b else v) v = v := by
  intro v h
  simp [h]

theorem userById_saveField_ne (s : List User) (i : Int) (f : String) (b : Bool)
    (j : Int) (hj : j ≠ i) : userById (saveField s i f b) j = userById s j :=
  find?_id_map_ne _ i (saveField_g_id i f b) (saveField_g_fix i f b) s j hj

theorem filterId_saveField_ne (s : List User) (i : Int) (f : String) (b : Bool)
    (j : Int) (hj : j ≠ i) :
    (saveField s i f b).filter (fun v => decide (v.id = j)) =
      s.filter (fun v => decide (v.id = j)) :=
  filter_id_map_ne _ i (saveField_g_id i f b) (saveField_g_fix i f b) s j hj

theorem mem_saveField_ne (s : List User) (i : Int) (f : String) (b : Bool)
    (v : User) (hv : v ∈ saveField s i f b) (hne : v.id ≠ i) : v ∈ s :=
  mem_id_map_ne _ i (saveField_g_id i f b) (saveField_g_fix i f b) s v hv hne

theorem dictUpd_g_id (u2 : User) :
    ∀ v : User, ((fun v => if v.id = u2.id then u2 else v) v).id = v.id := by
  intro v
  by_cases h : v.id = u2.id
  · simp [h]
  · simp [h]

theorem dictUpd_g_fix (u2 : User) :
    ∀ v : User, v.id ≠ u2.id → (fun v => if v.id = u2.id then u2 else v) v = v := by
  intro v h
  simp [h]

theorem userById_dictUpd_ne (d : List User) (u2 : User) (j : Int) (hj : j ≠ u2.id) :
    userById (dictUpd d u2) j = userById d j :=
  find?_id_map_ne _ u2.id (dictUpd_g_id u2) (dictUpd_g_fix u2) d j hj

/-! ### Nodup lookup lemmas -/

theorem mem_unique_of_nodup_id (l : List User) (h : (l.map (fun v => v.id)).Nodup)
    (u v : User) (hu : u ∈ l) (hv : v ∈ l) (he : v.id = u.id) : v = u :=
  List.inj_on_of_nodup_map h hv hu he

theorem userById_of_nodup (l : List User) (h : (l.map (fun v => v.id)).Nodup)
    (u : User) (hu : u ∈ l) : userById l u.id = some u := by
  induction l with
  | nil => exact absurd hu (List.not_mem_nil u)
  | cons a rest ih =>
    unfold userById
    rcases List.mem_cons.mp hu with rfl | hmem
    · rw [List.find?_cons_of_pos _ (by simp)]
    · simp only [List.map_cons, List.nodup_cons] at h
      have hne : ¬(a.id = u.id) := by
        intro he
        exact h.1 (he ▸ List.mem_map_of_mem (fun v => v.id) hmem)
      rw [List.find?_cons_of_neg _ (by simp [hne])]
      exact ih h.2 hmem

theorem filter_nodup_id (l : List User) (p : User → Bool)
    (h : (l.map (fun v => v.id)).Nodup) : ((l.filter p).map (fun v => v.id)).Nodup :=
  List.Nodup.sublist (List.Sublist.map _ (List.filter_sublist l)) h

/-! ### Message-string helper lemmas -/

theorem string_data_append (s t : String) : (s ++ t).data = s.data ++ t.data := by
  cases s
  cases t
  rfl

theorem alreadyMsg_ne_selfAssignMsg (d1 d2 : String) (u : User) :
    alreadyMsg d1 u ≠ selfAssignMsg d2 := by
  intro h
  unfold alreadyMsg selfAssignMsg at h
  have h2 := congrArg String.data h
  simp only [string_data_append, List.append_assoc] at h2
  simp only [List.cons_append] at h2
  injection h2 with hc _
  exact absurd hc (by decide)

/-! ### Validation-loop lemmas (assignment) -/

theorem parseAssign_cur_not_valid (disp : String) (cur : Int) :
    ∀ ids : List String, cur ∉ (parseAssignIds disp cur ids).valid := by
  intro ids
  induction ids with
  | nil => simp [parseAssignIds]
  | cons t rest ih =>
    rw [parseAssignIds]
    cases hp : pyInt t with
    | none => simpa using ih
    | some n =>
      simp only
      by_cases hn : n = cur
      · rw [if_pos hn]
        simpa using ih
      · rw [if_neg hn]
        simp only [List.mem_cons, not_or]
        exact ⟨fun h => hn h.symm, ih⟩

theorem parseAssign_errors_replicate (disp : String) (cur : Int) :
    ∀ ids : List String,
    (parseAssignIds disp cur ids).errors =
      List.replicate (ids.countP (fun t => decide (pyInt t = some cur)))
        (selfAssignMsg disp) := by
  intro ids
  induction ids with
  | nil => simp [parseAssignIds]
  | cons t rest ih =>
    rw [parseAssignIds, List.countP_cons]
    cases hp : pyInt t with
    | none => simpa [hp] using ih
    | some n =>
      simp only
      by_cases hn : n = cur
      · subst hn
        simp [hp, ih, List.replicate_succ]
      · rw [if_neg hn]
        have : ¬(pyInt t = some cur) := by
          rw [hp]
          exact fun h => hn (Option.some.inj h)
        simpa [this, hn] using ih

theorem parseAssign_valid_mem (disp : String) (cur : Int) :
    ∀ (ids : List String) (tok : String) (n : Int), tok ∈ ids →
    pyInt tok = some n → n ≠ cur → n ∈ (parseAssignIds disp cur ids).valid := by
  intro ids
  induction ids with
  | nil => intro tok n h; exact absurd h (List.not_mem_nil tok)
  | cons t rest ih =>
    intro tok n hmem hp hn
    rw [parseAssignIds]
    rcases List.mem_cons.mp hmem with rfl | hmem2
    · rw [hp]
      simp only
      rw [if_neg hn]
      exact List.mem_cons_self n _
    · have hrec := ih tok n hmem2 hp hn
      cases hpt : pyInt t with
      | none => simpa using hrec
      | some m =>
        simp only
        by_cases hm : m = cur
        · rw [if_pos hm]
          simpa using hrec
        · rw [if_neg hm]
          exact List.mem_cons_of_mem m hrec

theorem parseAssign_invalid_mem (disp : String) (cur : Int) :
    ∀ (ids : List String) (tok : String), tok ∈ ids →
    pyInt tok = none → tok ∈ (parseAssignIds disp cur ids).invalid := by
  intro ids
  induction ids with
  | nil => intro tok h; exact absurd h (List.not_mem_nil tok)
  | cons t rest ih =>
    intro tok hmem hp
    rw [parseAssignIds]
    rcases List.mem_cons.mp hmem with rfl | hmem2
    · rw [hp]
      exact List.mem_cons_self tok _
    · have hrec := ih tok hmem2 hp
      cases hpt : pyInt t with
      | none => exact List.mem_cons_of_mem t hrec
      | some m =>
        simp only
        by_cases hm : m = cur
        · rw [if_pos hm]
          simpa using hrec
        · rw [if_neg hm]
          simpa using hrec

theorem parseAssign_valid_nil (disp : String) (cur : Int) :
    ∀ ids : List String, (∀ t ∈ ids, pyInt t = none) →
    (parseAssignIds disp cur ids).valid = [] := by
  intro ids
  induction ids with
  | nil => intro _; rfl
  | cons t rest ih =>
    intro hall
    rw [parseAssignIds, hall t (List.mem_cons_self t rest)]
    exact ih (fun s hs => hall s (List.mem_cons_of_mem t hs))

/-! ### Validation-loop lemmas (dismissal) -/

theorem parseDismiss_cur_not_valid (cur : Int) :
    ∀ ids : List String, cur ∉ (parseDismissIds cur ids).1 := by
  intro ids
  induction ids with
  | nil => simp [parseDismissIds]
  | cons t rest ih =>
    rw [parseDismissIds]
    cases hp : pyInt t with
    | none => simpa using ih
    | some n =>
      simp only
      by_cases hn : n = cur
      · rw [if_pos hn]
        simpa using ih
      · rw [if_neg hn]
        simp only [List.mem_cons, not_or]
        exact ⟨fun h => hn h.symm, ih⟩

theorem parseDismiss_errors_replicate (cur : Int) :
    ∀ ids : List String,
    (parseDismissIds cur ids).2.2 =
      List.replicate (ids.countP (fun t => decide (pyInt t = some cur)))
        selfDismissMsg := by
  intro ids
  induction ids with
  | nil => simp [parseDismissIds]
  | cons t rest ih =>
    rw [parseDismissIds, List.countP_cons]
    cases hp : pyInt t with
    | none => simpa [hp] using ih
    | some n =>
      simp only
      by_cases hn : n = cur
      · subst hn
        simp [hp, ih, List.replicate_succ]
      · rw [if_neg hn]
        have : ¬(pyInt t = some cur) := by
          rw [hp]
          exact fun h => hn (Option.some.inj h)
        simpa [this, hn] using ih

theorem parseDismiss_valid_mem (cur : Int) :
    ∀ (ids : List String) (tok : String) (n : Int), tok ∈ ids →
    pyInt tok = some n → n ≠ cur → n ∈ (parseDismissIds cur ids).1 := by
  intro ids
  induction ids with
  | nil => intro tok n h; exact absurd h (List.not_mem_nil tok)
  | cons t rest ih =>
    intro tok n hmem hp hn
    rw [parseDismissIds]
    rcases List.mem_cons.mp hmem with rfl | hmem2
    · rw [hp]
      simp only
      rw [if_neg hn]
      exact List.mem_cons_self n _
    · have hrec := ih tok n hmem2 hp hn
      cases hpt : pyInt t with
      | none => simpa using hrec
      | some m =>
        simp only
        by_cases hm : m = cur
        · rw [if_pos hm]
          simpa using hrec
        · rw [if_neg hm]
          exact List.mem_cons_of_mem m hrec

theorem parseDismiss_notfound_mem (cur : Int) :
    ∀ (ids : List String) (tok : String), tok ∈ ids →
    pyInt tok = none → tok ∈ (parseDismissIds cur ids).2.1 := by
  intro ids
  induction ids with
  | nil => intro tok h; exact absurd h (List.not_mem_nil tok)
  | cons t rest ih =>
    intro tok hmem hp
    rw [parseDismissIds]
    rcases List.mem_cons.mp hmem with rfl | hmem2
    · rw [hp]
      exact List.mem_cons_self tok _
    · have hrec := ih tok hmem2 hp
      cases hpt : pyInt t with
      | none => exact List.mem_cons_of_mem t hrec
      | some m =>
        simp only
        by_cases hm : m = cur
        · rw [if_pos hm]
          simpa using hrec
        · rw [if_neg hm]
          simpa using hrec

theorem parseDismiss_valid_nil (cur : Int) :
    ∀ ids : List String, (∀ t ∈ ids, pyInt t = none) →
    (parseDismissIds cur ids).1 = [] := by
  intro ids
  induction ids with
  | nil => intro _; rfl
  | cons t rest ih =>
    intro hall
    rw [parseDismissIds, hall t (List.mem_cons_self t rest)]
    exact ih (fun s hs => hall s (List.mem_cons_of_mem t hs))

/-! ### Assignment-loop lemmas -/

theorem assignLoop_userById_ne (f d : String) (cur : Int) :
    ∀ (ids : List Int) (dict store : List User), cur ∉ ids →
    userById (assignLoop f d ids dict store).1 cur = userById store cur := by
  intro ids
  induction ids with
  | nil => intro dict store _; rfl
  | cons i rest ih =>
    intro dict store hni
    have hic : cur ≠ i := fun h => hni (h ▸ List.mem_cons_self i rest)
    have hrest : cur ∉ rest := fun h => hni (List.mem_cons_of_mem i h)
    rw [assignLoop]
    cases hfind : dict.find? (fun v => decide (v.id = i)) with
    | none =>
      simp only
      exact ih dict store hrest
    | some u =>
      simp only
      by_cases hflag : (getattrFlag u f).getD false = true
      · rw [if_pos hflag]
        exact ih dict store hrest
      · rw [if_neg hflag]
        simp only
        rw [ih _ _ hrest]
        exact userById_saveField_ne store i f true cur hic

theorem assignLoop_errors_shape (f d : String) :
    ∀ (ids : List Int) (dict store : List User),
    ∀ e ∈ (assignLoop f d ids dict store).2.errors, ∃ w, e = alreadyMsg d w := by
  intro ids
  induction ids with
  | nil => intro dict store e he; exact absurd he (List.not_mem_nil e)
  | cons i rest ih =>
    intro dict store e he
    rw [assignLoop] at he
    cases hfind : dict.find? (fun v => decide (v.id = i)) with
    | none =>
      rw [hfind] at he
      simp only at he
      exact ih dict store e he
    | some u =>
      rw [hfind] at he
      simp only at he
      by_cases hflag : (getattrFlag u f).getD false = true
      · rw [if_pos hflag] at he
        simp only at he
        rcases List.mem_cons.mp he with rfl | h2
        · exact ⟨u, rfl⟩
        · exact ih dict store e h2
      · rw [if_neg hflag] at he
        simp only at he
        exact ih _ _ e he

theorem assignLoop_errors_count (f d d2 : String) :
    ∀ (ids : List Int) (dict store : List User),
    ((assignLoop f d ids dict store).2.errors).count (selfAssignMsg d2) = 0 := by
  intro ids dict store
  rw [List.count_eq_zero]
  intro hmem
  rcases assignLoop_errors_shape f d ids dict store _ hmem with ⟨w, hw⟩
  exact alreadyMsg_ne_selfAssignMsg d d2 w hw.symm

theorem dictUpd_username_inv (dict : List User) (u2 u : User)
    (hw : u2.username ≠ u.username)
    (hinv : ∀ v ∈ dict, v.username = u.username → v.id = u.id) :
    ∀ v ∈ dictUpd dict u2, v.username = u.username → v.id = u.id := by
  intro v hv hn
  rcases List.mem_map.mp hv with ⟨x, hx, rfl⟩
  by_cases hxid : x.id = u2.id
  · rw [if_pos hxid] at hn ⊢
    exact absurd hn hw
  · rw [if_neg hxid] at hn ⊢
    exact hinv x hx hn

theorem assignLoop_already (f d : String) (u : User)
    (hflag : getattrFlag u f = some true) :
    ∀ (ids : List Int) (dict store : List User),
    dict.find? (fun v => decide (v.id = u.id)) = some u →
    (∀ v ∈ dict, v.username = u.username → v.id = u.id) →
    (∀ v ∈ (assignLoop f d ids dict store).1, v.id = u.id → v ∈ store) ∧
    (u.id ∈ ids → toString u.id ∈ (assignLoop f d ids dict store).2.invalid ∧
      alreadyMsg d u ∈ (assignLoop f d ids dict store).2.errors) ∧
    u.username ∉ (assignLoop f d ids dict store).2.assigned := by
  intro ids
  induction ids with
  | nil =>
    intro dict store _ _
    exact ⟨fun v hv _ => hv, fun h => absurd h (List.not_mem_nil _), List.not_mem_nil _⟩
  | cons i rest ih =>
    intro dict store hfindu hinv
    rw [assignLoop]
    by_cases hiu : i = u.id
    · subst hiu
      rw [hfindu]
      simp only
      have hg : (getattrFlag u f).getD false = true := by rw [hflag]; rfl
      rw [if_pos hg]
      simp only
      obtain ⟨ha, _, hc⟩ := ih dict store hfindu hinv
      exact ⟨ha, fun _ => ⟨List.mem_cons_self _ _, List.mem_cons_self _ _⟩, hc⟩
    · cases hfind : dict.find? (fun v => decide (v.id = i)) with
      | none =>
        simp only
        obtain ⟨ha, hb, hc⟩ := ih dict store hfindu hinv
        refine ⟨ha, ?_, hc⟩
        intro hmem
        rcases List.mem_cons.mp hmem with h1 | h2
        · exact absurd h1.symm hiu
        · exact hb h2
      | some w =>
        have hwid : w.id = i := by
          have h9 := List.find?_some hfind
          exact of_decide_eq_true h9
        have hwmem : w ∈ dict := List.mem_of_find?_eq_some hfind
        simp only
        by_cases hwf : (getattrFlag w f).getD false = true
        · rw [if_pos hwf]
          simp only
          obtain ⟨ha, hb, hc⟩ := ih dict store hfindu hinv
          refine ⟨ha, ?_, hc⟩
          intro hmem
          rcases List.mem_cons.mp hmem with h1 | h2
          · exact absurd h1.symm hiu
          · obtain ⟨hb1, hb2⟩ := hb h2
            exact ⟨List.mem_cons_of_mem _ hb1, List.mem_cons_of_mem _ hb2⟩
        · rw [if_neg hwf]
          simp only
          have hwname : w.username ≠ u.username := by
            intro h
            apply hiu
            rw [← hwid]
            exact hinv w hwmem h
          have hu2id : (setattrFlag w f true).id = i := by rw [setattrFlag_id]; exact hwid
          have hune : u.id ≠ (setattrFlag w f true).id := by
            rw [hu2id]
            exact fun h => hiu h.symm
          have hfind2 : (dictUpd dict (setattrFlag w f true)).find?
              (fun v => decide (v.id = u.id)) = some u := by
            have h5 := find?_id_map_ne (fun v => if v.id = (setattrFlag w f true).id
                then setattrFlag w f true else v) (setattrFlag w f true).id
              (dictUpd_g_id _) (dictUpd_g_fix _) dict u.id hune
            rw [show dictUpd dict (setattrFlag w f true) = dict.map
              (fun v => if v.id = (setattrFlag w f true).id
                then setattrFlag w f true else v) from rfl, h5]
            exact hfindu
          have hinv2 : ∀ v ∈ dictUpd dict (setattrFlag w f true),
              v.username = u.username → v.id = u.id := by
            apply dictUpd_username_inv
            · rw [setattrFlag_username]
              exact hwname
            · exact hinv
          obtain ⟨ha, hb, hc⟩ := ih (dictUpd dict (setattrFlag w f true))
            (saveField store i f true) hfind2 hinv2
          refine ⟨?_, ?_, ?_⟩
          · intro v hv hvid
            have hv2 := ha v hv hvid
            exact mem_saveField_ne store i f true v hv2 (by rw [hvid]; exact fun h => hiu h.symm)
          · intro hmem
            rcases List.mem_cons.mp hmem with h1 | h2
            · exact absurd h1.symm hiu
            · exact hb h2
          · simp only [List.mem_cons, not_or]
            exact ⟨fun h => hwname h.symm, hc⟩

/-! ### Dismissal-loop lemmas -/

theorem mem_saveField_cases (s : List User) (i : Int) (f : String) (b : Bool) (v : User)
    (hv : v ∈ saveField s i f b) :
    (∃ x, x ∈ s ∧ x.id = i ∧ v = setattrFlag x f b) ∨ (v ∈ s ∧ v.id ≠ i) := by
  rcases List.mem_map.mp hv with ⟨x, hx, rfl⟩
  by_cases hxi : x.id = i
  · left
    exact ⟨x, hx, hxi, if_pos hxi⟩
  · right
    have he : (if x.id = i then setattrFlag x f b else x) = x := if_neg hxi
    rw [he]
    exact ⟨hx, hxi⟩

theorem mem_dictUpd_cases (dict : List User) (u2 v : User)
    (hv : v ∈ dictUpd dict u2) :
    (∃ x, x ∈ dict ∧ x.id = u2.id ∧ v = u2) ∨ (v ∈ dict ∧ v.id ≠ u2.id) := by
  rcases List.mem_map.mp hv with ⟨x, hx, rfl⟩
  by_cases hxi : x.id = u2.id
  · left
    exact ⟨x, hx, hxi, if_pos hxi⟩
  · right
    have he : (if x.id = u2.id then u2 else x) = x := if_neg hxi
    rw [he]
    exact ⟨hx, hxi⟩

theorem dismissLoop_owner_done (u0 : Int) :
    ∀ (ids : List Int) (dict : List User) (db : DB),
    (∀ w ∈ dict, w.id = u0 → w.is_store_owner = false) →
    u0 ∉ db.owners →
    (∀ v ∈ db.users, v.id = u0 → v.is_store_owner = false) →
    u0 ∉ (dismissLoop ids dict db).1.owners ∧
    (∀ v ∈ (dismissLoop ids dict db).1.users, v.id = u0 → v.is_store_owner = false) := by
  intro ids
  induction ids with
  | nil =>
    intro dict db _ h2 h3
    exact ⟨h2, h3⟩
  | cons i rest ih =>
    intro dict db hdict howners husers
    rw [dismissLoop]
    cases hfind : dict.find? (fun v => decide (v.id = i)) with
    | none =>
      simp only
      exact ih dict db hdict howners husers
    | some w =>
      have hwid : w.id = i := by
        have h9 := List.find?_some hfind
        exact of_decide_eq_true h9
      have hwmem : w ∈ dict := List.mem_of_find?_eq_some hfind
      simp only
      cases hrole : get_role w with
      | none =>
        simp only
        exact ih dict db hdict howners husers
      | some role =>
        simp only
        set db1 := (if role = "STORE_OWNER" ∧ w.id ∈ db.owners then
          { db with owners := db.owners.filter (fun o => !(o = w.id)) } else db) with hdb1def
        have hdb1u : db1.users = db.users := by
          rw [hdb1def]
          split <;> rfl
        have hdb1o : u0 ∉ db1.owners := by
          rw [hdb1def]
          split
          · intro hmem
            exact howners (List.mem_of_mem_filter hmem)
          · exact howners
        cases hga : getattrFlag w ("is_" ++ pyLower role) with
        | none =>
          simp only
          apply ih dict db1 hdict hdb1o
          rw [hdb1u]
          exact husers
        | some bb =>
          simp only
          have hu2id : (setattrFlag w ("is_" ++ pyLower role) false).id = i := by
            rw [setattrFlag_id]
            exact hwid
          have hdict2 : ∀ x ∈ dictUpd dict (setattrFlag w ("is_" ++ pyLower role) false),
              x.id = u0 → x.is_store_owner = false := by
            intro x hx hxid
            rcases mem_dictUpd_cases dict _ x hx with ⟨y, _, _, rfl⟩ | ⟨hxmem, _⟩
            · have hiu0 : i = u0 := by
                rw [← hu2id]
                exact hxid
              have hwflag : w.is_store_owner = false :=
                hdict w hwmem (hwid.trans hiu0)
              rw [roleField_preserves_owner w hwflag role hrole w false]
              exact hwflag
            · exact hdict x hxmem hxid
          have husers2 : ∀ v ∈ saveField db1.users i ("is_" ++ pyLower role) false,
              v.id = u0 → v.is_store_owner = false := by
            intro v hv hvid
            rcases mem_saveField_cases db1.users i _ false v hv with
              ⟨x, hxmem, hxi, rfl⟩ | ⟨hvmem, _⟩
            · have hxid : x.id = u0 := by
                rw [← setattrFlag_id x ("is_" ++ pyLower role) false]
                exact hvid
              have hiu0 : i = u0 := hxi ▸ hxid
              have hwflag : w.is_store_owner = false :=
                hdict w hwmem (hwid.trans hiu0)
              rw [roleField_preserves_owner w hwflag role hrole x false]
              apply husers x _ hxid
              rw [← hdb1u]
              exact hxmem
            · apply husers v _ hvid
              rw [← hdb1u]
              exact hvmem
          exact ih _ _ hdict2 hdb1o husers2

theorem owner_field_eq : "is_" ++ pyLower "STORE_OWNER" = "is_store_owner" := by decide

theorem dismissLoop_owner_hit (u0 : Int) :
    ∀ (ids : List Int) (dict : List User) (db : DB) (w : User),
    u0 ∈ ids →
    dict.find? (fun v => decide (v.id = u0)) = some w →
    w.is_store_owner = true →
    u0 ∉ (dismissLoop ids dict db).1.owners ∧
    (∀ v ∈ (dismissLoop ids dict db).1.users, v.id = u0 → v.is_store_owner = false) := by
  intro ids
  induction ids with
  | nil =>
    intro dict db w hmem
    exact absurd hmem (List.not_mem_nil u0)
  | cons i rest ih =>
    intro dict db w hmem hfindu hwown
    rw [dismissLoop]
    by_cases hiu : i = u0
    · subst hiu
      rw [hfindu]
      simp only
      have hwid : w.id = i := by
        have h9 := List.find?_some hfindu
        exact of_decide_eq_true h9
      rw [get_role_of_owner w hwown]
      simp only
      rw [owner_field_eq]
      have hga : getattrFlag w "is_store_owner" = some w.is_store_owner := rfl
      rw [hga]
      simp only
      have hu2own : (setattrFlag w "is_store_owner" false).is_store_owner = false := by
        simp [setattrFlag]
      have hu2id : (setattrFlag w "is_store_owner" false).id = i := by
        rw [setattrFlag_id]
        exact hwid
      apply dismissLoop_owner_done
      · intro x hx hxid
        rcases mem_dictUpd_cases dict _ x hx with ⟨y, _, _, rfl⟩ | ⟨hxmem, hxne⟩
        · exact hu2own
        · exact absurd (hu2id ▸ hxid : x.id = (setattrFlag w "is_store_owner" false).id) hxne
      · split
        · intro hmem2
          rcases List.mem_filter.mp hmem2 with ⟨_, hx⟩
          simp [hwid] at hx
        · rename_i hcond
          intro hmem2
          exact hcond ⟨trivial, hwid ▸ hmem2⟩
      · intro v hv hvid
        rcases mem_saveField_cases _ i "is_store_owner" false v hv with
          ⟨x, _, _, rfl⟩ | ⟨_, hvne⟩
        · simp [setattrFlag]
        · exact absurd hvid hvne
    · have hmem2 : u0 ∈ rest := by
        rcases List.mem_cons.mp hmem with h1 | h2
        · exact absurd h1.symm hiu
        · exact h2
      cases hfind : dict.find? (fun v => decide (v.id = i)) with
      | none =>
        simp only
        exact ih dict db w hmem2 hfindu hwown
      | some w2 =>
        have hw2id : w2.id = i := by
          have h9 := List.find?_some hfind
          exact of_decide_eq_true h9
        simp only
        cases hrole : get_role w2 with
        | none =>
          simp only
          exact ih dict db w hmem2 hfindu hwown
        | some role =>
          simp only
          cases hga : getattrFlag w2 ("is_" ++ pyLower role) with
          | none =>
            simp only
            exact ih dict _ w hmem2 hfindu hwown
          | some bb =>
            simp only
            have hu2id : (setattrFlag w2 ("is_" ++ pyLower role) false).id = i := by
              rw [setattrFlag_id]
              exact hw2id
            have hune : u0 ≠ (setattrFlag w2 ("is_" ++ pyLower role) false).id := by
              rw [hu2id]
              exact fun h => hiu h.symm
            have hfind2 : (dictUpd dict (setattrFlag w2 ("is_" ++ pyLower role) false)).find?
                (fun v => decide (v.id = u0)) = some w := by
              have h5 := find?_id_map_ne
                (fun v => if v.id = (setattrFlag w2 ("is_" ++ pyLower role) false).id
                  then setattrFlag w2 ("is_" ++ pyLower role) false else v)
                (setattrFlag w2 ("is_" ++ pyLower role) false).id
                (dictUpd_g_id _) (dictUpd_g_fix _) dict u0 hune
              rw [show dictUpd dict (setattrFlag w2 ("is_" ++ pyLower role) false) = dict.map
                (fun v => if v.id = (setattrFlag w2 ("is_" ++ pyLower role) false).id
                  then setattrFlag w2 ("is_" ++ pyLower role) false else v) from rfl, h5]
              exact hfindu
            exact ih _ _ w hmem2 hfind2 hwown

theorem parseDismiss_valid_src (cur : Int) :
    ∀ (ids : List String) (n : Int), n ∈ (parseDismissIds cur ids).1 →
    ∃ t ∈ ids, pyInt t = some n := by
  intro ids
  induction ids with
  | nil => intro n h; exact absurd h (List.not_mem_nil n)
  | cons t rest ih =>
    intro n hmem
    rw [parseDismissIds] at hmem
    cases hp : pyInt t with
    | none =>
      rw [hp] at hmem
      simp only at hmem
      rcases ih n hmem with ⟨s, hs, hps⟩
      exact ⟨s, List.mem_cons_of_mem t hs, hps⟩
    | some m =>
      rw [hp] at hmem
      simp only at hmem
      by_cases hm : m = cur
      · rw [if_pos hm] at hmem
        rcases ih n hmem with ⟨s, hs, hps⟩
        exact ⟨s, List.mem_cons_of_mem t hs, hps⟩
      · rw [if_neg hm] at hmem
        rcases List.mem_cons.mp hmem with rfl | h2
        · exact ⟨t, List.mem_cons_self t rest, hp⟩
        · rcases ih n h2 with ⟨s, hs, hps⟩
          exact ⟨s, List.mem_cons_of_mem t hs, hps⟩

theorem mem_owners_filter_ne (l : List Int) (i j : Int) (h : j ≠ i) :
    j ∈ l.filter (fun o => !(o = i)) ↔ j ∈ l := by
  simp [List.mem_filter, h]

theorem dismissLoop_untouched (u0 : Int) :
    ∀ (ids : List Int) (dict : List User) (db : DB), u0 ∉ ids →
    userById (dismissLoop ids dict db).1.users u0 = userById db.users u0 ∧
    (u0 ∈ (dismissLoop ids dict db).1.owners ↔ u0 ∈ db.owners) := by
  intro ids
  induction ids with
  | nil => intro dict db _; exact ⟨rfl, Iff.rfl⟩
  | cons i rest ih =>
    intro dict db hni
    have hiu : u0 ≠ i := fun h => hni (h ▸ List.mem_cons_self i rest)
    have hrest : u0 ∉ rest := fun h => hni (List.mem_cons_of_mem i h)
    rw [dismissLoop]
    cases hfind : dict.find? (fun v => decide (v.id = i)) with
    | none =>
      simp only
      exact ih dict db hrest
    | some w =>
      have hwid : w.id = i := by
        have h9 := List.find?_some hfind
        exact of_decide_eq_true h9
      simp only
      cases hrole : get_role w with
      | none =>
        simp only
        exact ih dict db hrest
      | some role =>
        simp only
        by_cases hcond : role = "STORE_OWNER" ∧ w.id ∈ db.owners
        · rw [if_pos hcond]
          have howner : u0 ∈ db.owners.filter (fun o => !(o = w.id)) ↔ u0 ∈ db.owners :=
            mem_owners_filter_ne db.owners w.id u0 (hwid ▸ hiu)
          cases hga : getattrFlag w ("is_" ++ pyLower role) with
          | none =>
            simp only
            rcases ih dict ⟨db.users, db.owners.filter (fun o => !(o = w.id))⟩ hrest with ⟨h1, h2⟩
            exact ⟨h1, h2.trans howner⟩
          | some bb =>
            simp only
            rcases ih (dictUpd dict (setattrFlag w ("is_" ++ pyLower role) false))
              ⟨saveField db.users i ("is_" ++ pyLower role) false,
               db.owners.filter (fun o => !(o = w.id))⟩ hrest with ⟨h1, h2⟩
            refine ⟨?_, h2.trans howner⟩
            rw [h1]
            exact userById_saveField_ne db.users i _ false u0 hiu
        · rw [if_neg hcond]
          cases hga : getattrFlag w ("is_" ++ pyLower role) with
          | none =>
            simp only
            exact ih dict db hrest
          | some bb =>
            simp only
            rcases ih (dictUpd dict (setattrFlag w ("is_" ++ pyLower role) false))
              ⟨saveField db.users i ("is_" ++ pyLower role) false, db.owners⟩ hrest with ⟨h1, h2⟩
            refine ⟨?_, h2⟩
            rw [h1]
            exact userById_saveField_ne db.users i _ false u0 hiu

theorem dismissLoop_norole (u0 : Int) :
    ∀ (ids : List Int) (dict : List User) (db : DB) (w : User),
    dict.find? (fun v => decide (v.id = u0)) = some w →
    get_role w = none →
    userById (dismissLoop ids dict db).1.users u0 = userById db.users u0 ∧
    (u0 ∈ (dismissLoop ids dict db).1.owners ↔ u0 ∈ db.owners) := by
  intro ids
  induction ids with
  | nil => intro dict db w _ _; exact ⟨rfl, Iff.rfl⟩
  | cons i rest ih =>
    intro dict db w hfindu hnorole
    rw [dismissLoop]
    by_cases hiu : i = u0
    · subst hiu
      rw [hfindu]
      simp only
      rw [hnorole]
      simp only
      exact ih dict db w hfindu hnorole
    · cases hfind : dict.find? (fun v => decide (v.id = i)) with
      | none =>
        simp only
        exact ih dict db w hfindu hnorole
      | some w2 =>
        have hw2id : w2.id = i := by
          have h9 := List.find?_some hfind
          exact of_decide_eq_true h9
        simp only
        cases hrole : get_role w2 with
        | none =>
          simp only
          exact ih dict db w hfindu hnorole
        | some role =>
          simp only
          have hu0i : u0 ≠ i := fun h => hiu h.symm
          have hu2id : (setattrFlag w2 ("is_" ++ pyLower role) false).id = i := by
            rw [setattrFlag_id]
            exact hw2id
          have hune : u0 ≠ (setattrFlag w2 ("is_" ++ pyLower role) false).id := by
            rw [hu2id]
            exact hu0i
          have hfind2 : (dictUpd dict (setattrFlag w2 ("is_" ++ pyLower role) false)).find?
              (fun v => decide (v.id = u0)) = some w := by
            have h5 := find?_id_map_ne
              (fun v => if v.id = (setattrFlag w2 ("is_" ++ pyLower role) false).id
                then setattrFlag w2 ("is_" ++ pyLower role) false else v)
              (setattrFlag w2 ("is_" ++ pyLower role) false).id
              (dictUpd_g_id _) (dictUpd_g_fix _) dict u0 hune
            rw [show dictUpd dict (setattrFlag w2 ("is_" ++ pyLower role) false) = dict.map
              (fun v => if v.id = (setattrFlag w2 ("is_" ++ pyLower role) false).id
                then setattrFlag w2 ("is_" ++ pyLower role) false else v) from rfl, h5]
            exact hfindu
          by_cases hcond : role = "STORE_OWNER" ∧ w2.id ∈ db.owners
          · rw [if_pos hcond]
            have howner : u0 ∈ db.owners.filter (fun o => !(o = w2.id)) ↔ u0 ∈ db.owners :=
              mem_owners_filter_ne db.owners w2.id u0 (hw2id ▸ hu0i)
            cases hga : getattrFlag w2 ("is_" ++ pyLower role) with
            | none =>
              simp only
              rcases ih dict ⟨db.users, db.owners.filter (fun o => !(o = w2.id))⟩ w
                hfindu hnorole with ⟨h1, h2⟩
              exact ⟨h1, h2.trans howner⟩
            | some bb =>
              simp only
              rcases ih (dictUpd dict (setattrFlag w2 ("is_" ++ pyLower role) false))
                ⟨saveField db.users i ("is_" ++ pyLower role) false,
                 db.owners.filter (fun o => !(o = w2.id))⟩ w hfind2 hnorole with ⟨h1, h2⟩
              refine ⟨?_, h2.trans howner⟩
              rw [h1]
              exact userById_saveField_ne db.users i _ false u0 hu0i
          · rw [if_neg hcond]
            cases hga : getattrFlag w2 ("is_" ++ pyLower role) with
            | none =>
              simp only
              exact ih dict db w hfindu hnorole
            | some bb =>
              simp only
              rcases ih (dictUpd dict (setattrFlag w2 ("is_" ++ pyLower role) false))
                ⟨saveField db.users i ("is_" ++ pyLower role) false, db.owners⟩ w
                hfind2 hnorole with ⟨h1, h2⟩
              refine ⟨?_, h2⟩
              rw [h1]
              exact userById_saveField_ne db.users i _ false u0 hu0i

/-! ### Claim theorems -/

/-- C3: on every batch with at least one token, `process_assignments` persists
the per-user role-flag mutations (the returned table is exactly the one the
core mutation phase produced) before response-message construction runs; the
attribute name it invokes for that construction differs from the one the
handler defines, so the call ends in an attribute-lookup error and no
`AssignResult` is returned to the caller. -/
theorem C3_assignment_builder_typo :
    invokedAssignmentBuilderName ≠ definedAssignmentBuilderName ∧
    ∀ (cfg : RoleConfig) (cur : Int) (user_ids : List String) (store : List User),
      user_ids ≠ [] →
      process_assignments cfg cur user_ids store =
        ((process_assignments_core cfg cur user_ids store).1,
         Except.error (PyErr.attributeError invokedAssignmentBuilderName)) := by
  constructor
  · decide
  · intro cfg cur user_ids store _
    rw [process_assignments]
    have hb : assignResponseBuilders invokedAssignmentBuilderName = none := by
      rw [assignResponseBuilders]
      exact if_neg (by decide)
    rw [hb]

/-- C3 witness: a concrete one-token batch ends in the attribute error with
the mutated table returned. -/
theorem C3_assignment_builder_typo_witness :
    (["2"] : List String) ≠ [] ∧
    process_assignments storeOwnerConfig 1 ["2"] dbMain.users =
      ((process_assignments_core storeOwnerConfig 1 ["2"] dbMain.users).1,
       Except.error (PyErr.attributeError invokedAssignmentBuilderName)) :=
  ⟨by decide, C3_assignment_builder_typo.2 storeOwnerConfig 1 ["2"] dbMain.users (by decide)⟩

/-- C2 (code bug): with a non-empty batch, `dismiss_role` resolves the bare
name `RoleAssignmentAndDismissalHandler` on line 547, which is bound only in
the class namespace and not in any scope enclosing the method, so the endpoint
raises `NameError` instead of building summary strings and returning the
dismissal `BatchResult` with success status; no state is touched. -/
theorem C2_dismiss_name_error :
    dismiss_role dbMain uCarol ["2"] =
      (dbMain, Except.error (PyErr.nameError "RoleAssignmentAndDismissalHandler")) := by
  rfl

/-- C1: while no StoreOwnerRecord exists, `assign_store_owner` answers 403 to
every actor whose id is not 1 and changes nothing; for the actor with id 1 it
creates the actor's StoreOwnerRecord, sets the actor's own `is_store_owner`
flag and returns 200 with the bootstrap message, never reading the batch; once
a StoreOwnerRecord exists, every actor goes down the normal batch path. -/
theorem C1_bootstrap_store_owner :
    ∀ (db : DB) (actor : User) (user_ids : List String),
    (db.owners = [] → actor.id ≠ 1 →
      assign_store_owner db actor user_ids =
        (db, Except.ok ⟨403,
          Body.err "Only the first registered user (ID=1) can become the initial store owner."⟩)) ∧
    (db.owners = [] → actor.id = 1 →
      (assign_store_owner db actor user_ids).1.owners = [actor.id] ∧
      (∀ v ∈ (assign_store_owner db actor user_ids).1.users, v.id = actor.id →
        v.is_store_owner = true) ∧
      (assign_store_owner db actor user_ids).2 =
        Except.ok ⟨200, Body.msg "You have been assigned as the first store owner."⟩) ∧
    (db.owners ≠ [] →
      assign_store_owner db actor user_ids = assign_store_owner_batch db actor user_ids) := by
  intro db actor user_ids
  refine ⟨?_, ?_, ?_⟩
  · intro hemp hne
    rw [assign_store_owner, if_pos (by rw [hemp]; rfl : db.owners.isEmpty = true),
      if_pos hne]
  · intro hemp h1
    rw [assign_store_owner, if_pos (by rw [hemp]; rfl : db.owners.isEmpty = true),
      if_neg (fun hc => hc h1)]
    simp only
    refine ⟨?_, ?_, ?_⟩
    · rw [hemp]
      exact List.nil_append _
    · intro v hv hvid
      rcases List.mem_map.mp hv with ⟨x, _, rfl⟩
      by_cases hxid : x.id = ({ actor with is_store_owner := true } : User).id
      · rw [if_pos hxid]
      · rw [if_neg hxid] at hvid ⊢
        exact absurd hvid hxid
    · trivial
  · intro hne
    rw [assign_store_owner,
      if_neg (fun h => hne (List.isEmpty_iff.mp h))]

/-- C1 witness: the three bootstrap behaviours at concrete inputs. -/
theorem C1_bootstrap_store_owner_witness :
    (dbFresh.owners = [] ∧ uEve.id ≠ 1 ∧
      assign_store_owner dbFresh uEve ["1"] =
        (dbFresh, Except.ok ⟨403,
          Body.err "Only the first registered user (ID=1) can become the initial store owner."⟩)) ∧
    (dbFresh.owners = [] ∧ uAdmin.id = 1 ∧
      ((assign_store_owner dbFresh uAdmin []).1.owners = [uAdmin.id] ∧
       (∀ v ∈ (assign_store_owner dbFresh uAdmin []).1.users, v.id = uAdmin.id →
         v.is_store_owner = true) ∧
       (assign_store_owner dbFresh uAdmin []).2 =
         Except.ok ⟨200, Body.msg "You have been assigned as the first store owner."⟩)) ∧
    (dbMain.owners ≠ [] ∧
      assign_store_owner dbMain uCarol ["2"] = assign_store_owner_batch dbMain uCarol ["2"]) :=
  ⟨⟨rfl, by decide, (C1_bootstrap_store_owner dbFresh uEve ["1"]).1 rfl (by decide)⟩,
   ⟨rfl, rfl, (C1_bootstrap_store_owner dbFresh uAdmin []).2.1 rfl rfl⟩,
   ⟨by decide, (C1_bootstrap_store_owner dbMain uCarol ["2"]).2.2 (by decide)⟩⟩

/-- C8 counterexample: on the assign-store-owner endpoint in the bootstrap
state the StoreOwner-existence check runs before the empty-batch check, so an
empty `user_ids` list from actor 1 is answered 200 (not 400) and the state
changes. -/
theorem C8_counterexample :
    (assign_store_owner dbFresh uAdmin []).2 =
      Except.ok ⟨200, Body.msg "You have been assigned as the first store owner."⟩ ∧
    (assign_store_owner dbFresh uAdmin []).1 ≠ dbFresh := by
  constructor
  · rfl
  · decide

/-- C8 (amended): the five shared-body assign endpoints and dismiss-role
reject an empty batch with 400, unchanged state and no store access (the
response is the same for every database); `assign_store_owner` does so only
once a StoreOwnerRecord exists, because its bootstrap check runs first. -/
theorem C8_empty_batch :
    ∀ (db : DB) (actor : User) (role_type : String),
    assign_role_endpoint role_type db actor [] =
      (db, Except.ok ⟨400, Body.err "No user IDs provided."⟩) ∧
    dismiss_role db actor [] =
      (db, Except.ok ⟨400, Body.err "User IDs must be provided."⟩) ∧
    (db.owners ≠ [] →
      assign_store_owner db actor [] =
        (db, Except.ok ⟨400, Body.err "No user IDs provided."⟩)) := by
  intro db actor role_type
  refine ⟨rfl, rfl, ?_⟩
  intro hne
  rw [assign_store_owner,
    if_neg (fun h => hne (List.isEmpty_iff.mp h))]
  rfl

/-- C8 amended-claim witness at concrete inputs. -/
theorem C8_empty_batch_witness :
    dbMain.owners ≠ [] ∧
    assign_role_endpoint "cashier" dbMain uCarol [] =
      (dbMain, Except.ok ⟨400, Body.err "No user IDs provided."⟩) ∧
    assign_store_owner dbMain uCarol [] =
      (dbMain, Except.ok ⟨400, Body.err "No user IDs provided."⟩) :=
  ⟨by decide, (C8_empty_batch dbMain uCarol "cashier").1,
   (C8_empty_batch dbMain uCarol "cashier").2.2 (by decide)⟩

/-- C5: in both `process_assignments` and `process_dismissals`, every token
parsing to the actor's own id is excluded from processing (the actor's row is
never mutated, whatever the batch) and the self-reference error message occurs
in the output exactly as many times as such tokens occur, wherever they sit in
the batch. -/
theorem C5_self_reference :
    ∀ (cfg : RoleConfig) (cur : Int) (user_ids : List String) (store : List User) (db : DB),
    (userById (process_assignments_core cfg cur user_ids store).1 cur = userById store cur ∧
     (process_assignments_core cfg cur user_ids store).2.error_messages.count
        (selfAssignMsg cfg.display_name) =
       user_ids.countP (fun t => decide (pyInt t = some cur))) ∧
    (userById (process_dismissals_core cur user_ids db).1.users cur = userById db.users cur ∧
     (process_dismissals_core cur user_ids db).2.error_messages.count selfDismissMsg =
       user_ids.countP (fun t => decide (pyInt t = some cur))) := by
  intro cfg cur user_ids store db
  constructor
  · rw [process_assignments_core]
    by_cases hemp : (parseAssignIds cfg.display_name cur user_ids).valid.isEmpty = true
    · rw [if_pos hemp]
      refine ⟨rfl, ?_⟩
      simp only
      rw [parseAssign_errors_replicate]
      exact List.count_replicate_self _ _
    · rw [if_neg hemp]
      simp only
      constructor
      · exact assignLoop_userById_ne cfg.field cfg.display_name cur _ _ _
          (parseAssign_cur_not_valid cfg.display_name cur user_ids)
      · rw [List.count_append, parseAssign_errors_replicate,
          List.count_replicate_self, assignLoop_errors_count]
        exact Nat.add_zero _
  · rw [process_dismissals_core]
    by_cases hemp : (parseDismissIds cur user_ids).1.isEmpty = true
    · rw [if_pos hemp]
      refine ⟨rfl, ?_⟩
      simp only
      rw [parseDismiss_errors_replicate]
      exact List.count_replicate_self _ _
    · rw [if_neg hemp]
      simp only
      constructor
      · exact (dismissLoop_untouched cur _ _ db
          (parseDismiss_cur_not_valid cur user_ids)).1
      · rw [parseDismiss_errors_replicate]
        exact List.count_replicate_self _ _

/-- C4: a user in an assign batch whose target role flag is already set is
left entirely unchanged, gets an already-has-role error message, has their id
added to the invalid list, and their username never enters the assigned
list. -/
theorem C4_already_has_role :
    ∀ (cfg : RoleConfig) (cur : Int) (user_ids : List String) (store : List User)
      (u : User) (tok : String),
    (store.map (fun v => v.id)).Nodup →
    (store.map (fun v => v.username)).Nodup →
    u ∈ store → tok ∈ user_ids → pyInt tok = some u.id → u.id ≠ cur →
    getattrFlag u cfg.field = some true →
    (∀ v ∈ (process_assignments_core cfg cur user_ids store).1, v.id = u.id → v = u) ∧
    toString u.id ∈ (process_assignments_core cfg cur user_ids store).2.invalid_ids ∧
    alreadyMsg cfg.display_name u ∈
      (process_assignments_core cfg cur user_ids store).2.error_messages ∧
    u.username ∉ (process_assignments_core cfg cur user_ids store).2.assigned_users := by
  intro cfg cur user_ids store u tok hnid hnun humem htok hptok hnecur hflag
  have hvalid : u.id ∈ (parseAssignIds cfg.display_name cur user_ids).valid :=
    parseAssign_valid_mem cfg.display_name cur user_ids tok u.id htok hptok hnecur
  have hnemp : ¬((parseAssignIds cfg.display_name cur user_ids).valid.isEmpty = true) := by
    intro h
    rw [List.isEmpty_iff.mp h] at hvalid
    exact (List.not_mem_nil u.id) hvalid
  have hdmem : u ∈ store.filter
      (fun v => decide (v.id ∈ (parseAssignIds cfg.display_name cur user_ids).valid)) := by
    rw [List.mem_filter]
    exact ⟨humem, by simpa using hvalid⟩
  have hdnodup := filter_nodup_id store
    (fun v => decide (v.id ∈ (parseAssignIds cfg.display_name cur user_ids).valid)) hnid
  have hfindu : (store.filter
      (fun v => decide (v.id ∈ (parseAssignIds cfg.display_name cur user_ids).valid))).find?
      (fun v => decide (v.id = u.id)) = some u :=
    userById_of_nodup _ hdnodup u hdmem
  have hinv : ∀ v ∈ store.filter
      (fun v => decide (v.id ∈ (parseAssignIds cfg.display_name cur user_ids).valid)),
      v.username = u.username → v.id = u.id := by
    intro v hv hn
    have h7 := List.inj_on_of_nodup_map hnun (List.mem_of_mem_filter hv) humem hn
    rw [h7]
  obtain ⟨ha, hb, hc⟩ := assignLoop_already cfg.field cfg.display_name u hflag
    (parseAssignIds cfg.display_name cur user_ids).valid _ store hfindu hinv
  rw [process_assignments_core, if_neg hnemp]
  simp only
  refine ⟨?_, ?_, ?_, ?_⟩
  · intro v hv hvid
    exact mem_unique_of_nodup_id store hnid u v humem (ha v hv hvid) hvid
  · exact List.mem_append_right _ (hb hvalid).1
  · exact List.mem_append_right _ (hb hvalid).2
  · exact hc

/-- C4 witness: assigning store owner to the user who already is one. -/
theorem C4_already_has_role_witness :
    ((dbMain.users.map (fun v => v.id)).Nodup ∧
     (dbMain.users.map (fun v => v.username)).Nodup ∧
     uCarol ∈ dbMain.users ∧ ("3" : String) ∈ ["3"] ∧
     pyInt "3" = some uCarol.id ∧ uCarol.id ≠ 1 ∧
     getattrFlag uCarol storeOwnerConfig.field = some true) ∧
    toString uCarol.id ∈
      (process_assignments_core storeOwnerConfig 1 ["3"] dbMain.users).2.invalid_ids ∧
    alreadyMsg storeOwnerConfig.display_name uCarol ∈
      (process_assignments_core storeOwnerConfig 1 ["3"] dbMain.users).2.error_messages :=
  ⟨by decide,
   (C4_already_has_role storeOwnerConfig 1 ["3"] dbMain.users uCarol "3"
     (by decide) (by decide) (by decide) (by decide) (by decide) (by decide)
     (by decide)).2.1,
   (C4_already_has_role storeOwnerConfig 1 ["3"] dbMain.users uCarol "3"
     (by decide) (by decide) (by decide) (by decide) (by decide) (by decide)
     (by decide)).2.2.1⟩

/-- C6 counterexample: the token "-5" is not parseable as a positive integer,
yet `int("-5")` succeeds, so the assign validation loop treats it as
well-formed; it ends in the not-found list, not the invalid list, refuting the
claim as stated. -/
theorem C6_counterexample :
    pyInt "-5" = some (-5) ∧
    "-5" ∉ (process_assignments_core storeOwnerConfig 1 ["-5"] dbFresh.users).2.invalid_ids ∧
    "-5" ∈ (process_assignments_core storeOwnerConfig 1 ["-5"] dbFresh.users).2.not_found_ids := by
  decide

/-- C6 (amended): a token not parseable as an integer at all goes to the
assign operation's invalid list and is folded into the dismiss operation's
not-found list; when every token of the batch is unparseable neither operation
touches the stores. -/
theorem C6_malformed_tokens :
    ∀ (cfg : RoleConfig) (cur : Int) (user_ids : List String) (store : List User)
      (db : DB) (tok : String),
    (tok ∈ user_ids → pyInt tok = none →
      tok ∈ (process_assignments_core cfg cur user_ids store).2.invalid_ids ∧
      tok ∈ (process_dismissals_core cur user_ids db).2.not_found_ids) ∧
    ((∀ t ∈ user_ids, pyInt t = none) →
      (process_assignments_core cfg cur user_ids store).1 = store ∧
      (process_dismissals_core cur user_ids db).1 = db) := by
  intro cfg cur user_ids store db tok
  constructor
  · intro htok hptok
    constructor
    · have hmem := parseAssign_invalid_mem cfg.display_name cur user_ids tok htok hptok
      rw [process_assignments_core]
      by_cases hemp : (parseAssignIds cfg.display_name cur user_ids).valid.isEmpty = true
      · rw [if_pos hemp]
        exact hmem
      · rw [if_neg hemp]
        simp only
        exact List.mem_append_left _ hmem
    · have hmem := parseDismiss_notfound_mem cur user_ids tok htok hptok
      rw [process_dismissals_core]
      by_cases hemp : (parseDismissIds cur user_ids).1.isEmpty = true
      · rw [if_pos hemp]
        exact hmem
      · rw [if_neg hemp]
        simp only
        exact List.mem_append_left _ hmem
  · intro hall
    constructor
    · rw [process_assignments_core,
        if_pos (by rw [parseAssign_valid_nil cfg.display_name cur user_ids hall]; rfl :
          (parseAssignIds cfg.display_name cur user_ids).valid.isEmpty = true)]
    · rw [process_dismissals_core,
        if_pos (by rw [parseDismiss_valid_nil cur user_ids hall]; rfl :
          (parseDismissIds cur user_ids).1.isEmpty = true)]

/-- C6 amended-claim witness: a plainly malformed token. -/
theorem C6_malformed_tokens_witness :
    (("abc" : String) ∈ ["abc"] ∧ pyInt "abc" = none) ∧
    "abc" ∈ (process_assignments_core storeOwnerConfig 1 ["abc"] dbFresh.users).2.invalid_ids ∧
    "abc" ∈ (process_dismissals_core 1 ["abc"] dbMain).2.not_found_ids ∧
    (process_dismissals_core 1 ["abc"] dbMain).1 = dbMain :=
  ⟨⟨by decide, by decide⟩,
   ((C6_malformed_tokens storeOwnerConfig 1 ["abc"] dbFresh.users dbMain "abc").1
     (by decide) (by decide)).1,
   ((C6_malformed_tokens storeOwnerConfig 1 ["abc"] dbFresh.users dbMain "abc").1
     (by decide) (by decide)).2,
   ((C6_malformed_tokens storeOwnerConfig 1 ["abc"] dbFresh.users dbMain "abc").2
     (by decide)).2⟩

/-- C7: dismissing a found user whose resolved role is store-owner removes
their StoreOwner row and clears their flag, atomically for that user: when a
token of the batch names them both effects are present in the final state;
when no token names them, or their resolved role is `None` (the no-role
short-circuit), their row and their StoreOwner entry are untouched. -/
theorem C7_dismiss_store_owner :
    ∀ (cur : Int) (user_ids : List String) (db : DB) (u : User) (tok : String),
    (db.users.map (fun v => v.id)).Nodup →
    u ∈ db.users →
    (tok ∈ user_ids → pyInt tok = some u.id → u.id ≠ cur →
      get_role u = some "STORE_OWNER" →
      u.id ∉ (process_dismissals_core cur user_ids db).1.owners ∧
      (∀ v ∈ (process_dismissals_core cur user_ids db).1.users, v.id = u.id →
        v.is_store_owner = false)) ∧
    ((∀ t ∈ user_ids, pyInt t ≠ some u.id) →
      userById (process_dismissals_core cur user_ids db).1.users u.id =
        userById db.users u.id ∧
      (u.id ∈ (process_dismissals_core cur user_ids db).1.owners ↔ u.id ∈ db.owners)) ∧
    (get_role u = none →
      userById (process_dismissals_core cur user_ids db).1.users u.id =
        userById db.users u.id ∧
      (u.id ∈ (process_dismissals_core cur user_ids db).1.owners ↔ u.id ∈ db.owners)) := by
  intro cur user_ids db u tok hnid humem
  refine ⟨?_, ?_, ?_⟩
  · intro htok hptok hnecur hrole
    have hown : u.is_store_owner = true := (get_role_owner_iff u).mp hrole
    have hvalid : u.id ∈ (parseDismissIds cur user_ids).1 :=
      parseDismiss_valid_mem cur user_ids tok u.id htok hptok hnecur
    have hnemp : ¬((parseDismissIds cur user_ids).1.isEmpty = true) := by
      intro h
      rw [List.isEmpty_iff.mp h] at hvalid
      exact (List.not_mem_nil u.id) hvalid
    have hdmem : u ∈ db.users.filter
        (fun v => decide (v.id ∈ (parseDismissIds cur user_ids).1)) := by
      rw [List.mem_filter]
      exact ⟨humem, by simpa using hvalid⟩
    have hdnodup := filter_nodup_id db.users
      (fun v => decide (v.id ∈ (parseDismissIds cur user_ids).1)) hnid
    have hfindu : (db.users.filter
        (fun v => decide (v.id ∈ (parseDismissIds cur user_ids).1))).find?
        (fun v => decide (v.id = u.id)) = some u :=
      userById_of_nodup _ hdnodup u hdmem
    rw [process_dismissals_core, if_neg hnemp]
    simp only
    exact dismissLoop_owner_hit u.id (parseDismissIds cur user_ids).1 _ db u
      hvalid hfindu hown
  · intro hnone
    have hnval : u.id ∉ (parseDismissIds cur user_ids).1 := by
      intro h
      rcases parseDismiss_valid_src cur user_ids u.id h with ⟨t, ht, hpt⟩
      exact hnone t ht hpt
    rw [process_dismissals_core]
    by_cases hemp : (parseDismissIds cur user_ids).1.isEmpty = true
    · rw [if_pos hemp]
      exact ⟨rfl, Iff.rfl⟩
    · rw [if_neg hemp]
      simp only
      exact dismissLoop_untouched u.id (parseDismissIds cur user_ids).1 _ db hnval
  · intro hnorole
    rw [process_dismissals_core]
    by_cases hemp : (parseDismissIds cur user_ids).1.isEmpty = true
    · rw [if_pos hemp]
      exact ⟨rfl, Iff.rfl⟩
    · rw [if_neg hemp]
      simp only
      by_cases hval : u.id ∈ (parseDismissIds cur user_ids).1
      · have hdmem : u ∈ db.users.filter
            (fun v => decide (v.id ∈ (parseDismissIds cur user_ids).1)) := by
          rw [List.mem_filter]
          exact ⟨humem, by simpa using hval⟩
        have hdnodup := filter_nodup_id db.users
          (fun v => decide (v.id ∈ (parseDismissIds cur user_ids).1)) hnid
        have hfindu : (db.users.filter
            (fun v => decide (v.id ∈ (parseDismissIds cur user_ids).1))).find?
            (fun v => decide (v.id = u.id)) = some u :=
          userById_of_nodup _ hdnodup u hdmem
        exact dismissLoop_norole u.id (parseDismissIds cur user_ids).1 _ db u
          hfindu hnorole
      · exact dismissLoop_untouched u.id (parseDismissIds cur user_ids).1 _ db hval

/-- C7 witness: dismissing the concrete store owner removes their record and
clears their flag; users named by no token keep record and flag. -/
theorem C7_dismiss_store_owner_witness :
    ((dbMain.users.map (fun v => v.id)).Nodup ∧ uCarol ∈ dbMain.users ∧
     ("3" : String) ∈ ["3"] ∧ pyInt "3" = some uCarol.id ∧ uCarol.id ≠ 1 ∧
     get_role uCarol = some "STORE_OWNER" ∧
     (∀ t ∈ (["3"] : List String), pyInt t ≠ some uDave.id) ∧ uDave ∈ dbMain.users ∧
     get_role uBob = none ∧ uBob ∈ dbMain.users) ∧
    (uCarol.id ∉ (process_dismissals_core 1 ["3"] dbMain).1.owners) ∧
    (userById (process_dismissals_core 1 ["3"] dbMain).1.users uDave.id =
      userById dbMain.users uDave.id) ∧
    (userById (process_dismissals_core 1 ["3"] dbMain).1.users uBob.id =
      userById dbMain.users uBob.id) :=
  ⟨by decide,
   ((C7_dismiss_store_owner 1 ["3"] dbMain uCarol "3" (by decide) (by decide)).1
     (by decide) (by decide) (by decide) (by decide)).1,
   ((C7_dismiss_store_owner 1 ["3"] dbMain uDave "3" (by decide) (by decide)).2.1
     (by decide)).1,
   ((C7_dismiss_store_owner 1 ["3"] dbMain uBob "3" (by decide) (by decide)).2.2
     (by decide)).1⟩

/-- C9: the staff query with `role_type=cashier` returns exactly the users
with the cashier flag; with no filter it returns exactly the users holding any
of the six flags, each at most once when the table has unique ids; any other
non-empty filter value is rejected with a 400 response before any rows are
produced. -/
theorem C9_staff_query :
    ∀ users : List User,
    (∃ l, staff_members_query users (some "cashier") = some l ∧
      ∀ u : User, u ∈ l ↔ (u ∈ users ∧ u.is_cashier = true)) ∧
    (∃ l0, staff_members_query users none = some l0 ∧
      (∀ u : User, u ∈ l0 ↔ (u ∈ users ∧ hasAnyRole u = true)) ∧
      ((users.map (fun v => v.id)).Nodup → (l0.map (fun v => v.id)).Nodup)) ∧
    (∀ rt : String, rt ≠ "" → rt ∉ roleKeys →
      staff_members_query users (some rt) = none ∧
      ∀ (page : Nat) (psz : Option Nat),
        (get_staff_members users (some rt) page psz).status = 400) := by
  intro users
  refine ⟨?_, ?_, ?_⟩
  · refine ⟨(users.filter hasAnyRole).filter (fun u => u.is_cashier), rfl, ?_⟩
    intro u
    rw [List.mem_filter, List.mem_filter]
    constructor
    · rintro ⟨⟨hu, _⟩, hc⟩
      exact ⟨hu, hc⟩
    · rintro ⟨hu, hc⟩
      refine ⟨⟨hu, ?_⟩, hc⟩
      simp [hasAnyRole, hc]
  · refine ⟨users.filter hasAnyRole, rfl, ?_, ?_⟩
    · intro u
      rw [List.mem_filter]
    · intro hnd
      exact filter_nodup_id users hasAnyRole hnd
  · intro rt hne hnk
    simp only [roleKeys, List.mem_cons, List.not_mem_nil, or_false, not_or] at hnk
    obtain ⟨h1, h2, h3, h4, h5, h6⟩ := hnk
    have hq : staff_members_query users (some rt) = none := by
      rw [staff_members_query]
      rw [if_neg hne, if_neg h1, if_neg h2, if_neg h3, if_neg h4, if_neg h5, if_neg h6]
    refine ⟨hq, ?_⟩
    intro page psz
    rw [get_staff_members, hq]

/-- C9 witness: an unknown filter value on a concrete table. -/
theorem C9_staff_query_witness :
    (("boss" : String) ≠ "" ∧ ("boss" : String) ∉ roleKeys ∧
     (dbMain.users.map (fun v => v.id)).Nodup) ∧
    staff_members_query dbMain.users (some "boss") = none ∧
    (get_staff_members dbMain.users (some "boss") 1 none).status = 400 ∧
    (∃ l0, staff_members_query dbMain.users none = some l0 ∧
      (∀ u : User, u ∈ l0 ↔ (u ∈ dbMain.users ∧ hasAnyRole u = true)) ∧
      ((dbMain.users.map (fun v => v.id)).Nodup → (l0.map (fun v => v.id)).Nodup)) :=
  ⟨⟨by decide, by decide, by decide⟩,
   ((C9_staff_query dbMain.users).2.2 "boss" (by decide) (by decide)).1,
   ((C9_staff_query dbMain.users).2.2 "boss" (by decide) (by decide)).2 1 none,
   (C9_staff_query dbMain.users).2.1⟩

/-- C10: with no requested page size the staff page holds at most the default
10 rows; a requested size of at least 1 is honoured up to the hard cap of 100
and clamped to 100 beyond it; a page past the data yields an empty 200 page,
not an error. -/
theorem C10_pagination :
    ∀ (users : List User) (page : Nat) (psz : Option Nat),
    (∃ rows, get_staff_members users none page psz = ⟨200, Body.staff rows⟩ ∧
      rows.length ≤ get_page_size psz ∧
      ((users.filter hasAnyRole).length ≤ (page - 1) * get_page_size psz →
        rows = [])) ∧
    (psz = none → get_page_size psz = staff_default_page_size) ∧
    (∀ n : Nat, psz = some n → 1 ≤ n → n ≤ staff_max_page_size → get_page_size psz = n) ∧
    (∀ n : Nat, psz = some n → staff_max_page_size < n →
      get_page_size psz = staff_max_page_size) := by
  intro users page psz
  refine ⟨?_, ?_, ?_, ?_⟩
  · refine ⟨(paginate (users.filter hasAnyRole) page (get_page_size psz)).map staffRowOf,
      rfl, ?_, ?_⟩
    · rw [List.length_map, paginate, List.length_take]
      exact Nat.min_le_left _ _
    · intro hle
      rw [paginate, List.drop_eq_nil_of_le hle, List.take_nil]
      rfl
  · intro h
    subst h
    rfl
  · intro n h h1 h2
    subst h
    rw [get_page_size]
    rw [if_pos h1]
    exact min_eq_left h2
  · intro n h h100
    subst h
    rw [get_page_size]
    have h1 : 1 ≤ n := Nat.le_of_lt (Nat.lt_of_le_of_lt (by decide : (1 : Nat) ≤ 100) h100)
    rw [if_pos h1]
    exact min_eq_right (Nat.le_of_lt h100)

/-- C10 witness: a concrete oversized page-size request and an out-of-range
page. -/
theorem C10_pagination_witness :
    ((dbMain.users.filter hasAnyRole).length ≤ (99 - 1) * get_page_size (some 1000) ∧
     (some 1000 : Option Nat) = some 1000 ∧ staff_max_page_size < 1000 ∧
     (some 7 : Option Nat) = some 7 ∧ 1 ≤ 7 ∧ 7 ≤ staff_max_page_size) ∧
    get_page_size (some 1000) = staff_max_page_size ∧
    get_page_size (some 7) = 7 ∧
    (∃ rows, get_staff_members dbMain.users none 99 (some 1000) = ⟨200, Body.staff rows⟩ ∧
      rows.length ≤ get_page_size (some 1000) ∧
      ((dbMain.users.filter hasAnyRole).length ≤ (99 - 1) * get_page_size (some 1000) →
        rows = [])) :=
  ⟨⟨by decide, rfl, by decide, rfl, by decide, by decide⟩,
   (C10_pagination dbMain.users 99 (some 1000)).2.2.2 1000 rfl (by decide),
   (C10_pagination dbMain.users 1 (some 7)).2.2.1 7 rfl (by decide) (by decide),
   (C10_pagination dbMain.users 99 (some 1000)).1⟩
